import Mathlib

/-!
Verification of the german-article backend core pipeline: request validation,
prompt compilation, response extraction (JSON recovery from model candidates),
result classification, and the chat formatter.  Definitions are shallow
embeddings of the Go source; machine strings are Lean `String`/`List Char`.
-/

set_option maxRecDepth 4000

namespace GermanArticleBot

/-! ## Entities (internal/domain/entities) -/

/-- TranslationsInfo: eight optional string fields, mirroring the Go struct
(fields are zero-valued empty strings when absent in JSON). -/
structure TranslationsInfo where
  NominativeExample : String
  NominativeTranslation : String
  AccusativeExample : String
  AccusativeTranslation : String
  DativeExample : String
  DativeTranslation : String
  GenitiveExample : String
  GenitiveTranslation : String
deriving DecidableEq

/-- The Go zero value `entities.TranslationsInfo\x7b\x7d`. -/
def emptyTranslationsInfo : TranslationsInfo :=
  ⟨"", "", "", "", "", "", "", ""⟩

/-- ExampleInfo: definite and indefinite article translation quads. -/
structure ExampleInfo where
  Definite : TranslationsInfo
  Indefinite : TranslationsInfo
deriving DecidableEq

/-- The Go zero value `entities.ExampleInfo\x7b\x7d`. -/
def emptyExampleInfo : ExampleInfo :=
  ⟨emptyTranslationsInfo, emptyTranslationsInfo⟩

/-- ExamplesInfo: singular and plural example blocks. -/
structure ExamplesInfo where
  Singular : ExampleInfo
  Plural : ExampleInfo
deriving DecidableEq

/-- The Go zero value `entities.ExamplesInfo\x7b\x7d`. -/
def emptyExamplesInfo : ExamplesInfo :=
  ⟨emptyExampleInfo, emptyExampleInfo⟩

/-- ArticleInfo: one interpretation of the noun. -/
structure ArticleInfo where
  WordWithArticle : String
  Translation : String
  Example : ExamplesInfo
deriving DecidableEq

/-- The Go zero value `entities.ArticleInfo\x7b\x7d`. -/
def emptyArticleInfo : ArticleInfo :=
  ⟨"", "", emptyExamplesInfo⟩

/-- ArticleResponse: success flag, error string, data sequence. -/
structure ArticleResponse where
  Success : Bool
  Error : String
  Data : List ArticleInfo
deriving DecidableEq

/-- entities.NewSuccessResponse. -/
def NewSuccessResponse (data : List ArticleInfo) : ArticleResponse :=
  ⟨true, "", data⟩

/-- entities.NewErrorResponse. -/
def NewErrorResponse (err : String) : ArticleResponse :=
  ⟨false, err, []⟩

/-- ArticleRequest: the (word, language) pair. -/
structure ArticleRequest where
  Word : String
  Language : String
deriving DecidableEq

/-- entities.NewArticleRequest: defaults an empty language to "en". -/
def NewArticleRequest (word language : String) : ArticleRequest :=
  if language = "" then ⟨word, "en"⟩ else ⟨word, language⟩

/-- entities.(*ArticleRequest).IsValid: true when the raw word is non-empty. -/
def ArticleRequest.IsValid (r : ArticleRequest) : Bool :=
  r.Word ≠ ""

/-! ## Use case (application/usecases DetermineArticleUseCase.Execute)

The single outbound call to the AI service is represented by an explicit
argument `aiResult`: `Except e r` stands for the Go pair `(r, err)` returned
by `aiService.GenerateArticleInfo`.  `Execute` returns the Go pair
`(response, err)` with `Option String` standing for the possibly-nil error. -/

/-- usecases.(*DetermineArticleUseCase).Execute, with the AI service call
abstracted into the `aiResult` argument. -/
def Execute (request : ArticleRequest) (aiResult : Except String ArticleResponse) :
    ArticleResponse × Option String :=
  if ¬ request.IsValid then
    (NewErrorResponse "Word cannot be empty", none)
  else
    match aiResult with
    | .error e => (NewErrorResponse "Failed to process request", some e)
    | .ok response => (response, none)

/-! ## Language extraction (adapters ArticleHandler.extractLanguageFromHeader) -/

/-- Prefix of a character list up to (excluding) the first character
satisfying `p`; models `strings.Split(s, sep)[0]` for a one-character
separator. -/
def takeUntil (p : Char → Bool) (s : List Char) : List Char :=
  s.takeWhile (fun c => ! p c)

/-- The White_Space code points recognised by Go `unicode.IsSpace`. -/
def goUnicodeIsSpace (c : Char) : Bool :=
  (0x9 ≤ c.toNat ∧ c.toNat ≤ 0xd) ∨ c = ' ' ∨ c.toNat = 0x85 ∨ c.toNat = 0xa0 ∨
  c.toNat = 0x1680 ∨ (0x2000 ≤ c.toNat ∧ c.toNat ≤ 0x200a) ∨
  c.toNat = 0x2028 ∨ c.toNat = 0x2029 ∨ c.toNat = 0x202f ∨
  c.toNat = 0x205f ∨ c.toNat = 0x3000

/-- strings.TrimSpace on a character list. -/
def trimSpace (s : List Char) : List Char :=
  ((s.dropWhile goUnicodeIsSpace).reverse.dropWhile goUnicodeIsSpace).reverse

/-- handlers.(*ArticleHandler).extractLanguageFromHeader: first comma
segment, trimmed, cut at the first "-" and then at the first ";". -/
def extractLanguageFromHeader (acceptLanguage : String) : String :=
  if acceptLanguage = "" then "en"
  else
    let lang0 := takeUntil (fun c => c = ',') acceptLanguage.data
    let lang1 := trimSpace lang0
    let lang2 := if lang1.contains '-' then takeUntil (fun c => c = '-') lang1 else lang1
    let lang3 := if lang2.contains ';' then takeUntil (fun c => c = ';') lang2 else lang2
    String.mk lang3

/-! ## Response extraction (infrastructure/ai GeminiService.parseGeminiResponse) -/

/-- Match of the Go regexp `(?s)\x7b.*\x7d` on a text: the leftmost opening
brace through the rightmost closing brace, or `[]` when there is no match
(mirrors `regexp.FindString` returning the empty string). -/
def extractBraced (s : List Char) : List Char :=
  ((s.dropWhile (fun c => c ≠ '\x7b')).reverse.dropWhile (fun c => c ≠ '\x7d')).reverse

/-- The character class `\s` of Go regexp (RE2): `[\t\n\f\r ]`. -/
def goRegexpSpace (c : Char) : Bool :=
  c = '\t' ∨ c = '\n' ∨ c = '\x0c' ∨ c = '\r' ∨ c = ' '

/-- `reValidate.ReplaceAllString(text, "$1")` for the Go regexp
`,(\s*[\x7d\]])`: a left-to-right scan deleting a comma whose following
run of regexp whitespace ends at a closing brace or bracket; scanning
resumes after the replaced match, exactly as `ReplaceAllString` does. -/
def removeTrailingCommasF : Nat → List Char → List Char
  | 0, _ => []
  | _, [] => []
  | fuel + 1, c :: rest =>
    if c = ',' then
      match rest.dropWhile goRegexpSpace with
      | b :: rest2 =>
        if b = '\x7d' ∨ b = ']' then
          rest.takeWhile goRegexpSpace ++ b :: removeTrailingCommasF fuel rest2
        else
          c :: removeTrailingCommasF fuel rest
      | [] => c :: removeTrailingCommasF fuel rest
    else c :: removeTrailingCommasF fuel rest

/-- The scan with enough fuel for its input (each step consumes at least
one character). -/
def removeTrailingCommas (s : List Char) : List Char :=
  removeTrailingCommasF s.length s

/-- genai.Part (only the text field is read by the source). -/
structure Part where
  Text : String
deriving DecidableEq

/-- genai.Content. -/
structure Content where
  Parts : List Part
deriving DecidableEq

/-- genai.Candidate: the content pointer may be nil. -/
structure Candidate where
  Content : Option Content
deriving DecidableEq

/-- genai.GenerateContentResponse. -/
structure GenerateContentResponse where
  Candidates : List Candidate
deriving DecidableEq

/-- The text assembled from one candidate by the source loop, or `none` when
the candidate is skipped (nil content, no parts, or empty assembled text). -/
def candidateText (candidate : Candidate) : Option String :=
  match candidate.Content with
  | none => none
  | some content =>
    if content.Parts.isEmpty then none
    else
      let textResponse := content.Parts.foldl
        (fun acc part => if part.Text ≠ "" then acc ++ part.Text else acc) ""
      if textResponse = "" then none else some textResponse

/-- The cleaning applied to a candidate text before `json.Unmarshal`:
brace-match extraction, whitespace trim, trailing-comma repair. -/
def cleanResponseText (textResponse : String) : String :=
  String.mk (removeTrailingCommas (trimSpace (extractBraced textResponse.data)))

/-! ## JSON syntax (model of encoding/json parsing used by json.Unmarshal) -/

/-- JSON values; number literals keep their lexeme (no numeric field is
decoded by the source, so the lexeme is never interpreted). -/
inductive Json where
  | null
  | bool (b : Bool)
  | num (lexeme : List Char)
  | str (s : List Char)
  | arr (elems : List Json)
  | obj (members : List (List Char × Json))

/-- JSON insignificant whitespace (the Go scanner isSpace set). -/
def isJsonWs (c : Char) : Bool :=
  c = ' ' ∨ c = '\t' ∨ c = '\n' ∨ c = '\r'

/-- Hex digit value accepted by the Go string unquoter. -/
def hexVal (c : Char) : Option Nat :=
  if '0' ≤ c ∧ c ≤ '9' then some (c.toNat - 48)
  else if 'a' ≤ c ∧ c ≤ 'f' then some (c.toNat - 87)
  else if 'A' ≤ c ∧ c ≤ 'F' then some (c.toNat - 55)
  else none

/-- Combine a UTF-16 surrogate pair into a scalar value. -/
def surrogatePairChar (hi lo : Nat) : Char :=
  Char.ofNat (0x10000 + (hi - 0xd800) * 0x400 + (lo - 0xdc00))

mutual

/-- JSON string body parser (after the opening quote), fueled: returns the
decoded contents and the rest after the closing quote.  Escapes follow the
Go unquoter, including surrogate-pair handling with U+FFFD replacement of
unpaired surrogates and rejection of raw control characters. -/
def parseStrF : Nat → List Char → Option (List Char × List Char)
  | 0, _ => none
  | _, [] => none
  | fuel + 1, c :: rest =>
    if c = '"' then some ([], rest)
    else if c = '\\' then parseEscF fuel rest
    else if c.toNat < 0x20 then none
    else (parseStrF fuel rest).map (fun p => (c :: p.1, p.2))

/-- One escape sequence (the characters after a backslash) followed by the
remainder of the string body. -/
def parseEscF : Nat → List Char → Option (List Char × List Char)
  | 0, _ => none
  | fuel + 1, 'u' :: h1 :: h2 :: h3 :: h4 :: rest =>
    match hexVal h1, hexVal h2, hexVal h3, hexVal h4 with
    | some a, some b, some c, some d =>
      let n := ((a * 16 + b) * 16 + c) * 16 + d
      if 0xd800 ≤ n ∧ n < 0xe000 then
        parseSurrogateF fuel n rest
      else
        (parseStrF fuel rest).map (fun p => (Char.ofNat n :: p.1, p.2))
    | _, _, _, _ => none
  | fuel + 1, e :: r =>
    if e = '"' then (parseStrF fuel r).map (fun p => ('"' :: p.1, p.2))
    else if e = '\\' then (parseStrF fuel r).map (fun p => ('\\' :: p.1, p.2))
    else if e = '/' then (parseStrF fuel r).map (fun p => ('/' :: p.1, p.2))
    else if e = 'b' then (parseStrF fuel r).map (fun p => ('\x08' :: p.1, p.2))
    else if e = 'f' then (parseStrF fuel r).map (fun p => ('\x0c' :: p.1, p.2))
    else if e = 'n' then (parseStrF fuel r).map (fun p => ('\n' :: p.1, p.2))
    else if e = 'r' then (parseStrF fuel r).map (fun p => ('\r' :: p.1, p.2))
    else if e = 't' then (parseStrF fuel r).map (fun p => ('\t' :: p.1, p.2))
    else none
  | _, [] => none

/-- A \u escape that decoded to a surrogate value n: pair it with an
immediately following valid low-surrogate escape, else substitute U+FFFD
for the first escape alone, as the Go unquoter does. -/
def parseSurrogateF : Nat → Nat → List Char → Option (List Char × List Char)
  | 0, _, _ => none
  | fuel + 1, n, '\\' :: 'u' :: g1 :: g2 :: g3 :: g4 :: r2 =>
    match hexVal g1, hexVal g2, hexVal g3, hexVal g4 with
    | some a2, some b2, some c2, some d2 =>
      let m := ((a2 * 16 + b2) * 16 + c2) * 16 + d2
      if 0xd800 ≤ n ∧ n < 0xdc00 ∧ 0xdc00 ≤ m ∧ m < 0xe000 then
        (parseStrF fuel r2).map (fun p => (surrogatePairChar n m :: p.1, p.2))
      else
        (parseStrF fuel ('\\' :: 'u' :: g1 :: g2 :: g3 :: g4 :: r2)).map
          (fun p => ('�' :: p.1, p.2))
    | _, _, _, _ =>
      (parseStrF fuel ('\\' :: 'u' :: g1 :: g2 :: g3 :: g4 :: r2)).map
        (fun p => ('�' :: p.1, p.2))
  | fuel + 1, _, rest =>
    (parseStrF fuel rest).map (fun p => ('�' :: p.1, p.2))

end

/-- The string body parser with enough fuel for its input (every fueled
call strictly shortens the input). -/
def parseStr (s : List Char) : Option (List Char × List Char) :=
  parseStrF (s.length + 1) s

/-- Decimal digit test for JSON number lexing. -/
def isDigit (c : Char) : Bool :=
  '0' ≤ c ∧ c ≤ '9'

/-- JSON number integer part (no leading zeros). -/
def parseIntPart : List Char → Option (List Char × List Char)
  | [] => none
  | c :: r =>
    if c = '0' then some (['0'], r)
    else if isDigit c then some (c :: r.takeWhile isDigit, r.dropWhile isDigit)
    else none

/-- JSON number fraction part (possibly absent). -/
def parseFracPart : List Char → Option (List Char × List Char)
  | '.' :: r =>
    let ds := r.takeWhile isDigit
    if ds.isEmpty then none else some ('.' :: ds, r.dropWhile isDigit)
  | s => some ([], s)

/-- JSON number exponent part (possibly absent). -/
def parseExpPart (s : List Char) : Option (List Char × List Char) :=
  match s with
  | c :: r =>
    if c = 'e' ∨ c = 'E' then
      let signAndRest : List Char × List Char :=
        match r with
        | '+' :: r2 => (['+'], r2)
        | '-' :: r2 => (['-'], r2)
        | _ => ([], r)
      let ds := signAndRest.2.takeWhile isDigit
      if ds.isEmpty then none
      else some (c :: signAndRest.1 ++ ds, signAndRest.2.dropWhile isDigit)
    else some ([], s)
  | [] => some ([], [])

/-- JSON number lexer following the JSON grammar enforced by the Go scanner. -/
def parseNum (s : List Char) : Option (Json × List Char) :=
  let signAndRest : List Char × List Char :=
    match s with
    | '-' :: r => (['-'], r)
    | _ => ([], s)
  match parseIntPart signAndRest.2 with
  | none => none
  | some (ip, s2) =>
    match parseFracPart s2 with
    | none => none
    | some (fp, s3) =>
      match parseExpPart s3 with
      | none => none
      | some (ep, s4) => some (Json.num (signAndRest.1 ++ ip ++ fp ++ ep), s4)

mutual

/-- JSON value parser with fuel; each recursive call into a subterm is
preceded by at least one consumed character, so fuel `length + 1` realises
the scanner without a bound in practice. -/
def parseVal : Nat → List Char → Option (Json × List Char)
  | 0, _ => none
  | fuel + 1, s =>
    match s.dropWhile isJsonWs with
    | 'n' :: 'u' :: 'l' :: 'l' :: r => some (Json.null, r)
    | 't' :: 'r' :: 'u' :: 'e' :: r => some (Json.bool true, r)
    | 'f' :: 'a' :: 'l' :: 's' :: 'e' :: r => some (Json.bool false, r)
    | '"' :: r => (parseStr r).map (fun p => (Json.str p.1, p.2))
    | '\x7b' :: r =>
      match r.dropWhile isJsonWs with
      | '\x7d' :: r2 => some (Json.obj [], r2)
      | _ =>
        match parseMember fuel r with
        | none => none
        | some (kv, r1) =>
          match parseObjTail fuel r1 with
          | none => none
          | some (ms, r2) => some (Json.obj (kv :: ms), r2)
    | '[' :: r =>
      match r.dropWhile isJsonWs with
      | ']' :: r2 => some (Json.arr [], r2)
      | _ =>
        match parseVal fuel r with
        | none => none
        | some (v, r1) =>
          match parseArrTail fuel r1 with
          | none => none
          | some (vs, r2) => some (Json.arr (v :: vs), r2)
    | other => parseNum other

/-- One `"key": value` member. -/
def parseMember : Nat → List Char → Option ((List Char × Json) × List Char)
  | 0, _ => none
  | fuel + 1, s =>
    match s.dropWhile isJsonWs with
    | '"' :: r =>
      match parseStr r with
      | none => none
      | some (key, r1) =>
        match r1.dropWhile isJsonWs with
        | ':' :: r2 =>
          match parseVal fuel r2 with
          | none => none
          | some (v, r3) => some ((key, v), r3)
        | _ => none
    | _ => none

/-- Remaining members of an object after the first. -/
def parseObjTail : Nat → List Char → Option (List (List Char × Json) × List Char)
  | 0, _ => none
  | fuel + 1, s =>
    match s.dropWhile isJsonWs with
    | '\x7d' :: r => some ([], r)
    | ',' :: r =>
      match parseMember fuel r with
      | none => none
      | some (kv, r1) =>
        match parseObjTail fuel r1 with
        | none => none
        | some (ms, r2) => some (kv :: ms, r2)
    | _ => none

/-- Remaining elements of an array after the first. -/
def parseArrTail : Nat → List Char → Option (List Json × List Char)
  | 0, _ => none
  | fuel + 1, s =>
    match s.dropWhile isJsonWs with
    | ']' :: r => some ([], r)
    | ',' :: r =>
      match parseVal fuel r with
      | none => none
      | some (v, r1) =>
        match parseArrTail fuel r1 with
        | none => none
        | some (vs, r2) => some (v :: vs, r2)
    | _ => none

end

/-- Full-input JSON parse: one value, then only whitespace may remain
(mirrors json.Unmarshal performing a syntax check of the whole input). -/
def parseJsonText (s : List Char) : Option Json :=
  match parseVal (s.length + 1) s with
  | none => none
  | some (v, rest) => if (rest.dropWhile isJsonWs).isEmpty then some v else none

/-! ## JSON decoding into the source structs (model of json.Unmarshal)

Unknown object keys are ignored, `null` leaves the target unchanged, type
mismatches fail, later duplicate keys override, and key matching is the
case-insensitive fold the Go decoder applies to field tags (restricted here
to ASCII letters). -/

/-- ASCII lower-casing for the decoder key fold. -/
def foldChar (c : Char) : Char :=
  if 'A' ≤ c ∧ c ≤ 'Z' then Char.ofNat (c.toNat + 32) else c

/-- Case-insensitive key comparison used for JSON field-tag matching. -/
def keyFold (a b : List Char) : Bool :=
  a.map foldChar = b.map foldChar

/-- Decode a JSON value into a string field (replace on string, keep on
null, fail otherwise). -/
def decodeStringField (v : Json) (cur : String) : Option String :=
  match v with
  | .null => some cur
  | .str s => some (String.mk s)
  | _ => none

/-- Decode a JSON value into a bool field. -/
def decodeBoolField (v : Json) (cur : Bool) : Option Bool :=
  match v with
  | .null => some cur
  | .bool b => some b
  | _ => none

/-- One object member applied to a TranslationsInfo target. -/
def applyTranslationsMember (cur : TranslationsInfo) (key : List Char) (v : Json) :
    Option TranslationsInfo :=
  if keyFold key "nominativeExample".data then
    (decodeStringField v cur.NominativeExample).map (fun s => { cur with NominativeExample := s })
  else if keyFold key "nominativeTranslation".data then
    (decodeStringField v cur.NominativeTranslation).map
      (fun s => { cur with NominativeTranslation := s })
  else if keyFold key "accusativeExample".data then
    (decodeStringField v cur.AccusativeExample).map (fun s => { cur with AccusativeExample := s })
  else if keyFold key "accusativeTranslation".data then
    (decodeStringField v cur.AccusativeTranslation).map
      (fun s => { cur with AccusativeTranslation := s })
  else if keyFold key "dativeExample".data then
    (decodeStringField v cur.DativeExample).map (fun s => { cur with DativeExample := s })
  else if keyFold key "dativeTranslation".data then
    (decodeStringField v cur.DativeTranslation).map (fun s => { cur with DativeTranslation := s })
  else if keyFold key "genitiveExample".data then
    (decodeStringField v cur.GenitiveExample).map (fun s => { cur with GenitiveExample := s })
  else if keyFold key "genitiveTranslation".data then
    (decodeStringField v cur.GenitiveTranslation).map
      (fun s => { cur with GenitiveTranslation := s })
  else some cur

/-- Fold the members of an object into a TranslationsInfo target. -/
def decodeTranslationsMembers : TranslationsInfo → List (List Char × Json) →
    Option TranslationsInfo
  | cur, [] => some cur
  | cur, (k, v) :: ms =>
    match applyTranslationsMember cur k v with
    | none => none
    | some cur2 => decodeTranslationsMembers cur2 ms

/-- Decode a JSON value into a TranslationsInfo target. -/
def decodeTranslationsInto (cur : TranslationsInfo) : Json → Option TranslationsInfo
  | .null => some cur
  | .obj ms => decodeTranslationsMembers cur ms
  | _ => none

/-- One object member applied to an ExampleInfo target. -/
def applyExampleMember (cur : ExampleInfo) (key : List Char) (v : Json) : Option ExampleInfo :=
  if keyFold key "definite".data then
    (decodeTranslationsInto cur.Definite v).map (fun t => { cur with Definite := t })
  else if keyFold key "indefinite".data then
    (decodeTranslationsInto cur.Indefinite v).map (fun t => { cur with Indefinite := t })
  else some cur

/-- Fold the members of an object into an ExampleInfo target. -/
def decodeExampleMembers : ExampleInfo → List (List Char × Json) → Option ExampleInfo
  | cur, [] => some cur
  | cur, (k, v) :: ms =>
    match applyExampleMember cur k v with
    | none => none
    | some cur2 => decodeExampleMembers cur2 ms

/-- Decode a JSON value into an ExampleInfo target. -/
def decodeExampleInto (cur : ExampleInfo) : Json → Option ExampleInfo
  | .null => some cur
  | .obj ms => decodeExampleMembers cur ms
  | _ => none

/-- One object member applied to an ExamplesInfo target. -/
def applyExamplesMember (cur : ExamplesInfo) (key : List Char) (v : Json) : Option ExamplesInfo :=
  if keyFold key "singular".data then
    (decodeExampleInto cur.Singular v).map (fun e => { cur with Singular := e })
  else if keyFold key "plural".data then
    (decodeExampleInto cur.Plural v).map (fun e => { cur with Plural := e })
  else some cur

/-- Fold the members of an object into an ExamplesInfo target. -/
def decodeExamplesMembers : ExamplesInfo → List (List Char × Json) → Option ExamplesInfo
  | cur, [] => some cur
  | cur, (k, v) :: ms =>
    match applyExamplesMember cur k v with
    | none => none
    | some cur2 => decodeExamplesMembers cur2 ms

/-- Decode a JSON value into an ExamplesInfo target. -/
def decodeExamplesInto (cur : ExamplesInfo) : Json → Option ExamplesInfo
  | .null => some cur
  | .obj ms => decodeExamplesMembers cur ms
  | _ => none

/-- One object member applied to an ArticleInfo target. -/
def applyArticleInfoMember (cur : ArticleInfo) (key : List Char) (v : Json) : Option ArticleInfo :=
  if keyFold key "wordWithArticle".data then
    (decodeStringField v cur.WordWithArticle).map (fun s => { cur with WordWithArticle := s })
  else if keyFold key "translation".data then
    (decodeStringField v cur.Translation).map (fun s => { cur with Translation := s })
  else if keyFold key "example".data then
    (decodeExamplesInto cur.Example v).map (fun e => { cur with Example := e })
  else some cur

/-- Fold the members of an object into an ArticleInfo target. -/
def decodeArticleInfoMembers : ArticleInfo → List (List Char × Json) → Option ArticleInfo
  | cur, [] => some cur
  | cur, (k, v) :: ms =>
    match applyArticleInfoMember cur k v with
    | none => none
    | some cur2 => decodeArticleInfoMembers cur2 ms

/-- Decode a JSON value into an ArticleInfo target. -/
def decodeArticleInfoInto (cur : ArticleInfo) : Json → Option ArticleInfo
  | .null => some cur
  | .obj ms => decodeArticleInfoMembers cur ms
  | _ => none

/-- Decode a JSON array into a fresh `[]ArticleInfo` slice, element-wise. -/
def decodeArticleInfoList : List Json → Option (List ArticleInfo)
  | [] => some []
  | v :: vs =>
    match decodeArticleInfoInto emptyArticleInfo v with
    | none => none
    | some info =>
      match decodeArticleInfoList vs with
      | none => none
      | some infos => some (info :: infos)

/-- Decode a JSON value into the `Data []entities.ArticleInfo` field. -/
def decodeDataField (v : Json) (cur : List ArticleInfo) : Option (List ArticleInfo) :=
  match v with
  | .null => some cur
  | .arr es => decodeArticleInfoList es
  | _ => none

/-- The anonymous struct the source unmarshals a candidate into. -/
structure AiResponse where
  Error : Bool
  ErrorMessage : String
  Data : List ArticleInfo
deriving DecidableEq

/-- The zero value of the anonymous aiResponse struct. -/
def emptyAiResponse : AiResponse :=
  ⟨false, "", []⟩

/-- One object member applied to the aiResponse target. -/
def applyAiResponseMember (cur : AiResponse) (key : List Char) (v : Json) : Option AiResponse :=
  if keyFold key "error".data then
    (decodeBoolField v cur.Error).map (fun b => { cur with Error := b })
  else if keyFold key "errorMessage".data then
    (decodeStringField v cur.ErrorMessage).map (fun s => { cur with ErrorMessage := s })
  else if keyFold key "data".data then
    (decodeDataField v cur.Data).map (fun d => { cur with Data := d })
  else some cur

/-- Fold the members of an object into the aiResponse target. -/
def decodeAiResponseMembers : AiResponse → List (List Char × Json) → Option AiResponse
  | cur, [] => some cur
  | cur, (k, v) :: ms =>
    match applyAiResponseMember cur k v with
    | none => none
    | some cur2 => decodeAiResponseMembers cur2 ms

/-- Decode a JSON value into the aiResponse target. -/
def decodeAiResponseInto (cur : AiResponse) : Json → Option AiResponse
  | .null => some cur
  | .obj ms => decodeAiResponseMembers cur ms
  | _ => none

/-- `json.Unmarshal([]byte(text), &aiResponse)`: full syntax check and
decode into a zero-valued aiResponse; `none` is a non-nil error. -/
def unmarshalAiResponse (text : String) : Option AiResponse :=
  match parseJsonText text.data with
  | none => none
  | some j => decodeAiResponseInto emptyAiResponse j

/-! ## Classification and the candidate loop -/

/-- The tail of the candidate loop body: a parsed payload becomes a failure
response carrying the model message, or a success response wrapping the
data verbatim. -/
def classifyPayload (aiResponse : AiResponse) : ArticleResponse :=
  if aiResponse.Error then NewErrorResponse aiResponse.ErrorMessage
  else NewSuccessResponse aiResponse.Data

/-- The candidate loop of parseGeminiResponse: first candidate whose
cleaned text unmarshals wins; skipped and unparsable candidates fall
through; exhaustion yields the terminal parse failure. -/
def parseCandidates : List Candidate → ArticleResponse
  | [] => NewErrorResponse "Failed to parse AI response"
  | candidate :: rest =>
    match candidateText candidate with
    | none => parseCandidates rest
    | some textResponse =>
      match unmarshalAiResponse (cleanResponseText textResponse) with
      | none => parseCandidates rest
      | some aiResponse => classifyPayload aiResponse

/-- ai.(*GeminiService).parseGeminiResponse. -/
def parseGeminiResponse (resp : GenerateContentResponse) : ArticleResponse :=
  if resp.Candidates.isEmpty then NewErrorResponse "No response from AI service"
  else parseCandidates resp.Candidates

/-! ## Telegram chat formatter (adapters/telegram BotHandler.formatResponse)

The imperative strings.Builder code is sequentialized with two step
combinators that encode the two statement shapes of the source:
`if cond \x7b result.WriteString(line); hasData = true \x7d` and
`if hasData \x7b result.WriteString("\n"); hasData = false \x7d`. -/

/-- One conditional write of a case line, setting hasData on a write. -/
def wrWriteStep (st : String × Bool) (cond : Prop) [Decidable cond] (line : String) :
    String × Bool :=
  if cond then (st.1 ++ line, true) else st

/-- The blank-line separator step after a case group. -/
def wrSepStep (st : String × Bool) : String × Bool :=
  if st.2 then (st.1 ++ "\n", false) else st

/-- The wr closure of formatResponse: the four grammatical cases in source
order, definite before indefinite, with the source conditions verbatim. -/
def wr (info : ExampleInfo) : String :=
  let st0 : String × Bool := ("", false)
  let st1 := wrWriteStep st0
    (info.Definite ≠ emptyTranslationsInfo ∧ info.Definite.NominativeExample ≠ "" ∧
      info.Definite.NominativeTranslation ≠ "")
    ("• <b>Nominative Definite:</b> " ++ info.Definite.NominativeExample ++ " / <i>" ++
      info.Definite.NominativeTranslation ++ "</i>\n")
  let st2 := wrWriteStep st1
    (info.Indefinite ≠ emptyTranslationsInfo ∧ info.Indefinite.NominativeExample ≠ "" ∧
      info.Indefinite.NominativeTranslation ≠ "")
    ("• <b>Nominative Indefinite:</b> " ++ info.Indefinite.NominativeExample ++ " / <i>" ++
      info.Indefinite.NominativeTranslation ++ "</i>\n")
  let st3 := wrSepStep st2
  let st4 := wrWriteStep st3
    (info.Definite ≠ emptyTranslationsInfo ∧ info.Definite.AccusativeExample ≠ "" ∧
      info.Definite.AccusativeTranslation ≠ "")
    ("• <b>Accusative Definite:</b> " ++ info.Definite.AccusativeExample ++ " / <i>" ++
      info.Definite.AccusativeTranslation ++ "</i>\n")
  let st5 := wrWriteStep st4
    (info.Indefinite ≠ emptyTranslationsInfo ∧ info.Indefinite.AccusativeExample ≠ "" ∧
      info.Indefinite.AccusativeTranslation ≠ "")
    ("• <b>Accusative Indefinite:</b> " ++ info.Indefinite.AccusativeExample ++ " / <i>" ++
      info.Indefinite.AccusativeTranslation ++ "</i>\n")
  let st6 := wrSepStep st5
  let st7 := wrWriteStep st6
    (info.Definite ≠ emptyTranslationsInfo ∧ info.Definite.DativeExample ≠ "" ∧
      info.Definite.DativeTranslation ≠ "")
    ("• <b>Dative Definite:</b> " ++ info.Definite.DativeExample ++ " / <i>" ++
      info.Definite.DativeTranslation ++ "</i>\n")
  let st8 := wrWriteStep st7
    (info.Indefinite ≠ emptyTranslationsInfo ∧ info.Indefinite.DativeExample ≠ "" ∧
      info.Indefinite.DativeTranslation ≠ "")
    ("• <b>Dative Indefinite:</b> " ++ info.Indefinite.DativeExample ++ " / <i>" ++
      info.Indefinite.DativeTranslation ++ "</i>\n")
  let st9 := wrSepStep st8
  let st10 := wrWriteStep st9
    (info.Definite ≠ emptyTranslationsInfo ∧ info.Definite.GenitiveExample ≠ "" ∧
      info.Definite.GenitiveTranslation ≠ "")
    ("• <b>Genitive Definite:</b> " ++ info.Definite.GenitiveExample ++ " / <i>" ++
      info.Definite.GenitiveTranslation ++ "</i>\n")
  let st11 := wrWriteStep st10
    (info.Indefinite ≠ emptyTranslationsInfo ∧ info.Indefinite.GenitiveExample ≠ "" ∧
      info.Indefinite.GenitiveTranslation ≠ "")
    ("• <b>Genitive Indefinite:</b> " ++ info.Indefinite.GenitiveExample ++ " / <i>" ++
      info.Indefinite.GenitiveTranslation ++ "</i>\n")
  st11.1

/-- strings.Repeat("─", 10). -/
def entryDivider : String :=
  "──────────"

/-- The per-interpretation block of formatResponse. -/
def formatEntry (info : ArticleInfo) : String :=
  let s0 := "🇩🇪 <b>" ++ info.WordWithArticle ++ "</b>\n" ++
    ("📖 <i>" ++ info.Translation ++ "</i>\n\n")
  let sh1 : String × Bool :=
    if info.Example.Singular ≠ emptyExampleInfo then
      (s0 ++ "📝 <b>Singular Examples:</b>\n" ++ wr info.Example.Singular, true)
    else (s0, false)
  if info.Example.Plural ≠ emptyExampleInfo then
    sh1.1 ++ (if sh1.2 then "\n" else "") ++ "📝 <b>Plural Examples:</b>\n" ++
      wr info.Example.Plural
  else sh1.1

/-- The `for i, info := range response.Data` loop with its `i > 0` divider. -/
def formatDataLoop : Bool → List ArticleInfo → String
  | _, [] => ""
  | isFirst, info :: rest =>
    (if isFirst then "" else "\n\n" ++ entryDivider ++ "\n\n") ++ formatEntry info ++
      formatDataLoop false rest

/-- telegram.(*BotHandler).formatResponse. -/
def formatResponse (response : ArticleResponse) : String :=
  if ¬ response.Success then "❌ <b>Error:</b> " ++ response.Error
  else if response.Data.isEmpty then "❌ No information found for this word."
  else formatDataLoop true response.Data

/-! ## Clean reformulation of wr used by the formatter theorems -/

/-- One definite/indefinite line pair for a grammatical case under the
pair-presence rule (both example and translation non-empty); the prefixes
are the labelled bullet openings of the two lines. -/
def caseGroup (defPre defEx defTr indefPre indefEx indefTr : String) : String :=
  (if defEx ≠ "" ∧ defTr ≠ "" then
    defPre ++ defEx ++ " / <i>" ++ defTr ++ "</i>\n"
  else "") ++
  (if indefEx ≠ "" ∧ indefTr ≠ "" then
    indefPre ++ indefEx ++ " / <i>" ++ indefTr ++ "</i>\n"
  else "")

/-- A populated case group is followed by a blank-line separator whether or
not a later group is populated. -/
def withSep (g : String) : String :=
  if g = "" then "" else g ++ "\n"

/-- The nominative case group of an example block. -/
def nominativeGroup (info : ExampleInfo) : String :=
  caseGroup "• <b>Nominative Definite:</b> " info.Definite.NominativeExample
    info.Definite.NominativeTranslation "• <b>Nominative Indefinite:</b> "
    info.Indefinite.NominativeExample info.Indefinite.NominativeTranslation

/-- The accusative case group of an example block. -/
def accusativeGroup (info : ExampleInfo) : String :=
  caseGroup "• <b>Accusative Definite:</b> " info.Definite.AccusativeExample
    info.Definite.AccusativeTranslation "• <b>Accusative Indefinite:</b> "
    info.Indefinite.AccusativeExample info.Indefinite.AccusativeTranslation

/-- The dative case group of an example block. -/
def dativeGroup (info : ExampleInfo) : String :=
  caseGroup "• <b>Dative Definite:</b> " info.Definite.DativeExample
    info.Definite.DativeTranslation "• <b>Dative Indefinite:</b> "
    info.Indefinite.DativeExample info.Indefinite.DativeTranslation

/-- The genitive case group of an example block. -/
def genitiveGroup (info : ExampleInfo) : String :=
  caseGroup "• <b>Genitive Definite:</b> " info.Definite.GenitiveExample
    info.Definite.GenitiveTranslation "• <b>Genitive Indefinite:</b> "
    info.Indefinite.GenitiveExample info.Indefinite.GenitiveTranslation

/-- The clean form of wr: fixed case order, definite line before indefinite
line, pair-presence rule, and a trailing blank-line separator after each
populated group except the genitive one. -/
def wrClean (info : ExampleInfo) : String :=
  withSep (nominativeGroup info) ++ withSep (accusativeGroup info) ++
    withSep (dativeGroup info) ++ genitiveGroup info

/-! ## Prompt compiler (GenerateArticleInfo template rendering)

The html/template prompt constant is parsed into literal segments and the
two interpolation actions; execution in text context applies the standard
HTML escaper to interpolated data. -/

/-- A piece of the parsed prompt template: a literal segment, the word
action, or the language action. -/
inductive PromptPiece where
  | lit (s : String)
  | word
  | lang
deriving DecidableEq

/-- The prompt template constant of the ai package, split at its
interpolation actions. -/
def promptTemplate : List PromptPiece := [
  .lit "You are a German language assistant. I will provide you with a German noun (Nomen), and you need to determine the correct article (der, die, das).\n\nThe word is: \"",
  .word,
  .lit "\"\nопределённый артикль — definite article\nнеопределённый артикль — indefinite article\nRespond in JSON format with EXACTLY this structure:\n\x7b\n  \"error\": false/true,\n  \"errorMessage\": \"Only if there\x27s an error, explain what\x27s wrong in ",
  .lang,
  .lit " language\",\n  \"data\": [\n    \x7b\n      \"wordWithArticle\": \"article + word in German\",\n      \"translation\": \"translation in ",
  .lang,
  .lit "\",\n\t  \"example\": \x7b\n\t\t\"singular\": \x7b\n\t\t\t\"definite\": \x7b\n\t\t\t\t\"nominativeExample\": \"simple example using the word \\\"",
  .word,
  .lit "\\\" in singular nominative definite case\",\n\t\t\t\t\"nominativeTranslation\": \"translation of the singular nominative definite example in ",
  .lang,
  .lit "\",\n\t\t\t\t\"accusativeExample\": \"simple example using the word \\\"",
  .word,
  .lit "\\\" in singular accusative definite case\",\n\t\t\t\t\"accusativeTranslation\": \"translation of the singular accusative definite example in ",
  .lang,
  .lit "\",\n\t\t\t\t\"dativeExample\": \"simple example using the word \\\"",
  .word,
  .lit "\\\" in singular dative definite case\",\n\t\t\t\t\"dativeTranslation\": \"translation of the singular dative definite example in ",
  .lang,
  .lit "\",\n\t\t\t\t\"genitiveExample\": \"simple example using the word \\\"",
  .word,
  .lit "\\\" in singular genitive definite case\",\n\t\t\t\t\"genitiveTranslation\": \"translation of the singular genitive definite example in ",
  .lang,
  .lit "\"\n\t\t\t\x7d,\n\t\t\t\"indefinite\": \x7b\n\t\t\t\t\"nominativeExample\": \"simple example using the word \\\"",
  .word,
  .lit "\\\" in singular nominative indefinite case\",\n\t\t\t\t\"nominativeTranslation\": \"translation of the singular nominative indefinite example in ",
  .lang,
  .lit "\",\n\t\t\t\t\"accusativeExample\": \"simple example using the word \\\"",
  .word,
  .lit "\\\" in singular accusative indefinite case\",\n\t\t\t\t\"accusativeTranslation\": \"translation of the singular accusative indefinite example in ",
  .lang,
  .lit "\",\n\t\t\t\t\"dativeExample\": \"simple example using the word \\\"",
  .word,
  .lit "\\\" in singular dative indefinite case\",\n\t\t\t\t\"dativeTranslation\": \"translation of the singular dative indefinite example in ",
  .lang,
  .lit "\",\n\t\t\t\t\"genitiveExample\": \"simple example using the word \\\"",
  .word,
  .lit "\\\" in singular genitive indefinite case\",\n\t\t\t\t\"genitiveTranslation\": \"translation of the singular genitive indefinite example in ",
  .lang,
  .lit "\"\n\t\t\t\x7d,\n\t\t\x7d,\n\t\t\"plural\": \x7b\n\t\t\t\"definite\": \x7b\n\t\t\t\t\"nominativeExample\": \"simple example using the word \\\"",
  .word,
  .lit "\\\" in plural nominative definite case\",\n\t\t\t\t\"nominativeTranslation\": \"translation of the plural nominative definite example in ",
  .lang,
  .lit "\",\n\t\t\t\t\"accusativeExample\": \"simple example using the word \\\"",
  .word,
  .lit "\\\" in plural accusative definite case\",\n\t\t\t\t\"accusativeTranslation\": \"translation of the plural accusative definite example in ",
  .lang,
  .lit "\",\n\t\t\t\t\"dativeExample\": \"simple example using the word \\\"",
  .word,
  .lit "\\\" in plural dative definite case\",\n\t\t\t\t\"dativeTranslation\": \"translation of the plural dative definite example in ",
  .lang,
  .lit "\",\n\t\t\t\t\"genitiveExample\": \"simple example using the word \\\"",
  .word,
  .lit "\\\" in plural genitive definite case\",\n\t\t\t\t\"genitiveTranslation\": \"translation of the plural genitive definite example in ",
  .lang,
  .lit "\"\n\t\t\t\x7d,\n\t\t\t\"indefinite\": \x7b\n\t\t\t\t\"nominativeExample\": \"simple example using the word \\\"",
  .word,
  .lit "\\\" in plural nominative indefinite case\",\n\t\t\t\t\"nominativeTranslation\": \"translation of the plural nominative indefinite example in ",
  .lang,
  .lit "\",\n\t\t\t\t\"accusativeExample\": \"simple example using the word \\\"",
  .word,
  .lit "\\\" in plural accusative indefinite case\",\n\t\t\t\t\"accusativeTranslation\": \"translation of the plural accusative indefinite example in ",
  .lang,
  .lit "\",\n\t\t\t\t\"dativeExample\": \"simple example using the word \\\"",
  .word,
  .lit "\\\" in plural dative indefinite case\",\n\t\t\t\t\"dativeTranslation\": \"translation of the plural dative indefinite example in ",
  .lang,
  .lit "\",\n\t\t\t\t\"genitiveExample\": \"simple example using the word \\\"",
  .word,
  .lit "\\\" in plural genitive indefinite case\",\n\t\t\t\t\"genitiveTranslation\": \"translation of the plural genitive indefinite example in ",
  .lang,
  .lit "\"\n\t\t\t\x7d,\n\t\t\x7d,\n\t  \x7d\n    \x7d\n  ]\n\x7d\n\nIf the input is not a German noun or contains multiple words that aren\x27t a compound noun, set \"error\" to true and provide an appropriate error message.\nIf there are multiple possible interpretations, include each as a separate object in the data array.\nEnsure ALL field values are properly escaped for JSON."
]

/-- The html/template text-context escaper on one character. -/
def htmlEscapeChar (c : Char) : String :=
  if c = '<' then "&lt;"
  else if c = '>' then "&gt;"
  else if c = '&' then "&amp;"
  else if c.toNat = 39 then "&#39;"
  else if c = '\"' then "&#34;"
  else if c.toNat = 0 then "\uFFFD"
  else String.singleton c

/-- The html/template text-context escaper on interpolated data. -/
def htmlEscape (s : String) : String :=
  s.data.foldl (fun acc c => acc ++ htmlEscapeChar c) ""

/-- Render one template piece as template execution does. -/
def renderPiece (w l : String) : PromptPiece → String
  | .lit s => s
  | .word => htmlEscape w
  | .lang => htmlEscape l

/-- The compiled prompt text produced by GenerateArticleInfo for a
request. -/
def compilePrompt (request : ArticleRequest) : String :=
  (promptTemplate.map (renderPiece request.Word request.Language)).foldl
    (fun acc s => acc ++ s) ""

/-- Literal substitution of the word and language into every slot of the
template, with no escaping: the rendering described by the specification. -/
def renderPieceLiteral (w l : String) : PromptPiece → String
  | .lit s => s
  | .word => w
  | .lang => l

/-- The prompt with the word and the language substituted unchanged. -/
def compilePromptLiteral (w l : String) : String :=
  (promptTemplate.map (renderPieceLiteral w l)).foldl (fun acc s => acc ++ s) ""

/-- A character the html/template text escaper leaves unchanged. -/
def htmlSafeChar (c : Char) : Bool :=
  ¬ (c = '<' ∨ c = '>' ∨ c = '&' ∨ c.toNat = 39 ∨ c = '"' ∨ c.toNat = 0)

/-- A string the html/template text escaper leaves unchanged. -/
def htmlSafe (s : String) : Bool :=
  s.data.all htmlSafeChar

/-! ## encoding/json marshaling (the canonical serialization of entities)

Field order and omitempty behaviour follow the struct tags: empty strings
and empty slices are omitted, struct-typed fields are always emitted, and
string contents get the default escaping (quotes, backslashes, control
characters, and HTML-relevant characters as lowercase \u escapes). -/

/-- Lowercase hexadecimal digit. -/
def hexDigit (n : Nat) : Char :=
  if n < 10 then Char.ofNat (48 + n) else Char.ofNat (87 + n)

/-- encoding/json escaping of one string character (default HTML-escaping
encoder). -/
def escapeChar (c : Char) : List Char :=
  if c = '"' then ['\\', '"']
  else if c = '\\' then ['\\', '\\']
  else if c = '\n' then ['\\', 'n']
  else if c = '\r' then ['\\', 'r']
  else if c = '\t' then ['\\', 't']
  else if c = '<' then ['\\', 'u', '0', '0', '3', 'c']
  else if c = '>' then ['\\', 'u', '0', '0', '3', 'e']
  else if c = '&' then ['\\', 'u', '0', '0', '2', '6']
  else if c.toNat < 0x20 then
    ['\\', 'u', '0', '0', hexDigit (c.toNat / 16), hexDigit (c.toNat % 16)]
  else if c.toNat = 0x2028 then ['\\', 'u', '2', '0', '2', '8']
  else if c.toNat = 0x2029 then ['\\', 'u', '2', '0', '2', '9']
  else [c]

/-- encoding/json escaping of a whole string body. -/
def escapeString (s : List Char) : List Char :=
  s.foldr (fun c acc => escapeChar c ++ acc) []

/-- A marshaled JSON string literal. -/
def quoteString (s : List Char) : List Char :=
  '"' :: escapeString s ++ ['"']

/-- One marshaled object member: quoted key, colon, rendered value. -/
def renderMemberOne (m : List Char × List Char) : List Char :=
  quoteString m.1 ++ ':' :: m.2

/-- The members of a marshaled object after the first, each preceded by a
comma, up to and including the closing brace. -/
def renderMembersTail : List (List Char × List Char) → List Char
  | [] => ['\x7d']
  | m :: ms => ',' :: (renderMemberOne m ++ renderMembersTail ms)

/-- A marshaled JSON object given its members as key and rendered value. -/
def renderMembers (ms : List (List Char × List Char)) : List Char :=
  '\x7b' ::
    (match ms with
     | [] => ['\x7d']
     | m :: tail => renderMemberOne m ++ renderMembersTail tail)

/-- The elements of a marshaled array after the first, each preceded by a
comma, up to and including the closing bracket. -/
def renderElemsTail : List (List Char) → List Char
  | [] => [']']
  | e :: es => ',' :: (e ++ renderElemsTail es)

/-- A marshaled JSON array given its rendered elements. -/
def renderElems (es : List (List Char)) : List Char :=
  '[' ::
    (match es with
     | [] => [']']
     | e :: tail => e ++ renderElemsTail tail)

/-- A rendered text parses as one JSON value, leaving exactly the rest,
under any fuel above its length; rendered texts are non-empty. -/
def ValParses (txt : List Char) (v : Json) : Prop :=
  txt ≠ [] ∧ ∀ fuel rest, txt.length < fuel → parseVal fuel (txt ++ rest) = some (v, rest)

/-- A marshaled bool. -/
def marshalBool (b : Bool) : List Char :=
  if b then "true".data else "false".data

/-- The present (non-omitted) fields of a TranslationsInfo, in tag order. -/
def translationsFields (t : TranslationsInfo) : List (List Char × List Char) :=
  (if t.NominativeExample ≠ "" then
    [("nominativeExample".data, t.NominativeExample.data)] else []) ++
  (if t.NominativeTranslation ≠ "" then
    [("nominativeTranslation".data, t.NominativeTranslation.data)] else []) ++
  (if t.AccusativeExample ≠ "" then
    [("accusativeExample".data, t.AccusativeExample.data)] else []) ++
  (if t.AccusativeTranslation ≠ "" then
    [("accusativeTranslation".data, t.AccusativeTranslation.data)] else []) ++
  (if t.DativeExample ≠ "" then
    [("dativeExample".data, t.DativeExample.data)] else []) ++
  (if t.DativeTranslation ≠ "" then
    [("dativeTranslation".data, t.DativeTranslation.data)] else []) ++
  (if t.GenitiveExample ≠ "" then
    [("genitiveExample".data, t.GenitiveExample.data)] else []) ++
  (if t.GenitiveTranslation ≠ "" then
    [("genitiveTranslation".data, t.GenitiveTranslation.data)] else [])

/-- json.Marshal of a TranslationsInfo. -/
def marshalTranslationsInfo (t : TranslationsInfo) : List Char :=
  renderMembers ((translationsFields t).map (fun m => (m.1, quoteString m.2)))

/-- json.Marshal of an ExampleInfo (struct fields are never omitted). -/
def marshalExampleInfo (e : ExampleInfo) : List Char :=
  renderMembers
    [("definite".data, marshalTranslationsInfo e.Definite),
     ("indefinite".data, marshalTranslationsInfo e.Indefinite)]

/-- json.Marshal of an ExamplesInfo. -/
def marshalExamplesInfo (e : ExamplesInfo) : List Char :=
  renderMembers
    [("singular".data, marshalExampleInfo e.Singular),
     ("plural".data, marshalExampleInfo e.Plural)]

/-- json.Marshal of an ArticleInfo. -/
def marshalArticleInfo (info : ArticleInfo) : List Char :=
  renderMembers
    [("wordWithArticle".data, quoteString info.WordWithArticle.data),
     ("translation".data, quoteString info.Translation.data),
     ("example".data, marshalExamplesInfo info.Example)]

/-- json.Marshal of an ArticleResponse (error and data have omitempty). -/
def marshalArticleResponse (r : ArticleResponse) : List Char :=
  renderMembers
    ([("success".data, marshalBool r.Success)] ++
     (if r.Error ≠ "" then [("error".data, quoteString r.Error.data)] else []) ++
     (if r.Data.isEmpty then []
      else [("data".data, renderElems (r.Data.map marshalArticleInfo))]))

/-- A response made of one candidate carrying exactly the given text, as
used by the idempotence claim. -/
def singleCandidate (text : String) : GenerateContentResponse :=
  ⟨[⟨some ⟨[⟨text⟩]⟩⟩]⟩

/-! ## The JSON values that marshaled entities denote -/

/-- The JSON value of a marshaled TranslationsInfo. -/
def jsonOfTranslationsInfo (t : TranslationsInfo) : Json :=
  Json.obj ((translationsFields t).map (fun m => (m.1, Json.str m.2)))

/-- The JSON value of a marshaled ExampleInfo. -/
def jsonOfExampleInfo (e : ExampleInfo) : Json :=
  Json.obj
    [("definite".data, jsonOfTranslationsInfo e.Definite),
     ("indefinite".data, jsonOfTranslationsInfo e.Indefinite)]

/-- The JSON value of a marshaled ExamplesInfo. -/
def jsonOfExamplesInfo (e : ExamplesInfo) : Json :=
  Json.obj
    [("singular".data, jsonOfExampleInfo e.Singular),
     ("plural".data, jsonOfExampleInfo e.Plural)]

/-- The JSON value of a marshaled ArticleInfo. -/
def jsonOfArticleInfo (info : ArticleInfo) : Json :=
  Json.obj
    [("wordWithArticle".data, Json.str info.WordWithArticle.data),
     ("translation".data, Json.str info.Translation.data),
     ("example".data, jsonOfExamplesInfo info.Example)]

/-- The JSON value of a marshaled ArticleResponse. -/
def jsonOfArticleResponse (r : ArticleResponse) : Json :=
  Json.obj
    ([("success".data, Json.bool r.Success)] ++
     (if r.Error ≠ "" then [("error".data, Json.str r.Error.data)] else []) ++
     (if r.Data.isEmpty then []
      else [("data".data, Json.arr (r.Data.map jsonOfArticleInfo))]))

/-! ## Invariant predicates on responses -/

/-- The canonical response invariant claimed by the specification: a
non-empty error exactly on failure, and data populated only on success. -/
def respInvariant (r : ArticleResponse) : Prop :=
  (r.Error ≠ "" ↔ r.Success = false) ∧ (r.Data ≠ [] → r.Success = true)

/-- The invariant the code actually maintains on every produced response:
it omits the guarantee that a failure carries a non-empty error string. -/
def weakInvariant (r : ArticleResponse) : Prop :=
  (r.Success = true → r.Error = "") ∧ (r.Success = false → r.Data = []) ∧
  (r.Data ≠ [] → r.Success = true) ∧ (r.Error ≠ "" → r.Success = false)

end GermanArticleBot

namespace GermanArticleBot

/-! ## Theorems -/

/-! ### C3: empty-word validation -/

/-- Claim C3 counterexample: an all-whitespace word is not rejected by
validation; with a successful AI outcome the pipeline returns success, not
the empty-word failure the claim requires. -/
theorem c3_counterexample :
    (Execute ⟨" ", "en"⟩ (Except.ok (NewSuccessResponse []))).1.Success = true := by
  decide

/-- Claim C3 (amended): validation rejects exactly the empty word.  For the
empty word, Execute short-circuits to the empty-word failure value no
matter what the AI call would return; for every non-empty word — an
all-whitespace word included — validation passes and the result is the AI
outcome (no trimming is applied by the pipeline). -/
theorem c3_empty_word_validation (request : ArticleRequest)
    (aiResult : Except String ArticleResponse) :
    (request.Word = "" →
      Execute request aiResult = (NewErrorResponse "Word cannot be empty", none)) ∧
    (request.Word ≠ "" →
      Execute request aiResult =
        match aiResult with
        | .error e => (NewErrorResponse "Failed to process request", some e)
        | .ok response => (response, none)) := by
  constructor
  · intro h
    simp [Execute, ArticleRequest.IsValid, h]
  · intro h
    simp only [Execute, ArticleRequest.IsValid]
    simp [h]

/-- Witness for c3_empty_word_validation at concrete inputs. -/
theorem c3_empty_word_validation_witness :
    Execute ⟨"", "en"⟩ (Except.ok (NewSuccessResponse [])) =
      (NewErrorResponse "Word cannot be empty", none) ∧
    Execute ⟨" ", "en"⟩ (Except.ok (NewSuccessResponse [])) =
      (NewSuccessResponse [], none) :=
  ⟨(c3_empty_word_validation ⟨"", "en"⟩ (Except.ok (NewSuccessResponse []))).1 rfl,
   (c3_empty_word_validation ⟨" ", "en"⟩ (Except.ok (NewSuccessResponse []))).2 (by decide)⟩

/-! ### C10: use case error propagation -/

/-- Claim C10: for a valid request, Execute returns a non-nil error exactly
when the AI call itself failed; in that case the response is the fixed
failure value and the error is propagated; otherwise the error is nil and
the response alone carries the outcome. -/
theorem c10_execute_error_iff (request : ArticleRequest) (h : request.IsValid = true) :
    (∀ e, Execute request (Except.error e) =
      (NewErrorResponse "Failed to process request", some e)) ∧
    (∀ r, Execute request (Except.ok r) = (r, none)) ∧
    (∀ aiResult, (Execute request aiResult).2 ≠ none ↔ ∃ e, aiResult = Except.error e) := by
  refine ⟨fun e => ?_, fun r => ?_, fun aiResult => ?_⟩
  · simp [Execute, h]
  · simp [Execute, h]
  · cases aiResult <;> simp [Execute, h]

/-- Witness for c10_execute_error_iff at a concrete request. -/
theorem c10_execute_error_iff_witness :
    Execute ⟨"Haus", "en"⟩ (Except.error "quota") =
      (NewErrorResponse "Failed to process request", some "quota") ∧
    Execute ⟨"Haus", "en"⟩ (Except.ok (NewSuccessResponse [])) =
      (NewSuccessResponse [], none) :=
  ⟨(c10_execute_error_iff ⟨"Haus", "en"⟩ (by decide)).1 "quota",
   (c10_execute_error_iff ⟨"Haus", "en"⟩ (by decide)).2.1 (NewSuccessResponse [])⟩

/-! ### C5: classification totality -/

/-- Claim C5: classification of a parsed payload is a total case split: an
error payload yields the failure response carrying the payload message,
any other payload yields a success wrapping the data verbatim, and an
empty data sequence renders in chat as the fixed no-information message. -/
theorem c5_classification_total (p : AiResponse) :
    (p.Error = true → classifyPayload p = NewErrorResponse p.ErrorMessage) ∧
    (p.Error = false → classifyPayload p = NewSuccessResponse p.Data) ∧
    (p.Error = false → p.Data = [] →
      formatResponse (classifyPayload p) = "❌ No information found for this word.") := by
  refine ⟨fun h => ?_, fun h => ?_, fun h hd => ?_⟩
  · simp [classifyPayload, h]
  · simp [classifyPayload, h]
  · simp [classifyPayload, h, hd, formatResponse, NewSuccessResponse]

/-- Witness for c5_classification_total on the zero payload. -/
theorem c5_classification_total_witness :
    formatResponse (classifyPayload emptyAiResponse) =
      "❌ No information found for this word." :=
  (c5_classification_total emptyAiResponse).2.2 rfl rfl

/-! ### C9: language normalization -/

/-- Cutting at a character that does not occur is the identity. -/
theorem takeUntil_of_not_contains (d : Char) (l : List Char) (h : l.contains d = false) :
    takeUntil (fun c => c = d) l = l := by
  rw [takeUntil, List.takeWhile_eq_self_iff]
  intro x hx
  have hne : ¬ x = d := by
    intro he
    rw [Bool.eq_false_iff] at h
    exact h (List.contains_iff_exists_mem_beq.2 ⟨x, hx, by simp [he]⟩)
  simp only [Bool.not_eq_true']
  exact decide_eq_false hne

/-- Two successive cuts compose into a cut at the first of either
character. -/
theorem takeUntil_takeUntil (d e : Char) (l : List Char) :
    takeUntil (fun c => c = e) (takeUntil (fun c => c = d) l) =
      takeUntil (fun c => c = d ∨ c = e) l := by
  rw [takeUntil, takeUntil, takeUntil, List.takeWhile_takeWhile]
  congr 1
  funext c
  by_cases h1 : c = d <;> by_cases h2 : c = e <;> simp [h1, h2]

/-- The two conditional cuts of the source equal one cut at the first
dash or semicolon. -/
theorem langCut_eq (l : List Char) :
    (let l2 := if l.contains '-' then takeUntil (fun c => c = '-') l else l
     if l2.contains ';' then takeUntil (fun c => c = ';') l2 else l2) =
      takeUntil (fun c => c = '-' ∨ c = ';') l := by
  have base : takeUntil (fun c => c = ';') (takeUntil (fun c => c = '-') l) =
      takeUntil (fun c => c = '-' ∨ c = ';') l := takeUntil_takeUntil '-' ';' l
  by_cases hd : l.contains '-'
  · simp only [hd, if_true]
    by_cases hs : (takeUntil (fun c => c = '-') l).contains ';'
    · simp only [hs, if_true, base]
    · simp only [Bool.not_eq_true] at hs
      simp only [hs, if_neg Bool.false_ne_true]
      rw [← base, takeUntil_of_not_contains ';' _ hs]
  · simp only [Bool.not_eq_true] at hd
    have hl : takeUntil (fun c => c = '-') l = l := takeUntil_of_not_contains '-' l hd
    simp only [hd, if_neg Bool.false_ne_true]
    by_cases hs : l.contains ';'
    · simp only [hs, if_true, ← base, hl]
    · simp only [Bool.not_eq_true] at hs
      simp only [hs, if_neg Bool.false_ne_true]
      rw [← base, hl, takeUntil_of_not_contains ';' l hs]

/-- A cut at dash or semicolon never retains either character. -/
theorem takeUntil_dashSemi_clean (l : List Char) :
    (takeUntil (fun c => c = '-' ∨ c = ';') l).contains '-' = false ∧
    (takeUntil (fun c => c = '-' ∨ c = ';') l).contains ';' = false := by
  constructor <;>
  · rw [Bool.eq_false_iff]
    intro hc
    obtain ⟨b, hb, hbeq⟩ := List.contains_iff_exists_mem_beq.1 hc
    have hp := List.mem_takeWhile_imp hb
    rw [beq_iff_eq] at hbeq
    subst hbeq
    simp at hp

/-- Claim C9: request normalization of the language code: the non-empty
header is reduced to its first comma segment, trimmed, and cut at the
first dash or semicolon (hence the result never contains a dash or a
semicolon); the empty header and the empty language both default to en. -/
theorem c9_language_normalization :
    (∀ s : String, s ≠ "" →
      extractLanguageFromHeader s =
        String.mk (takeUntil (fun c => c = '-' ∨ c = ';')
          (trimSpace (takeUntil (fun c => c = ',') s.data)))) ∧
    extractLanguageFromHeader "en-US,en;q=0.9" = "en" ∧
    extractLanguageFromHeader "" = "en" ∧
    (∀ word : String, (NewArticleRequest word "").Language = "en") ∧
    (∀ s : String, s ≠ "" →
      (extractLanguageFromHeader s).data.contains '-' = false ∧
      (extractLanguageFromHeader s).data.contains ';' = false) := by
  have hchar : ∀ s : String, s ≠ "" →
      extractLanguageFromHeader s =
        String.mk (takeUntil (fun c => c = '-' ∨ c = ';')
          (trimSpace (takeUntil (fun c => c = ',') s.data))) := by
    intro s hs
    rw [extractLanguageFromHeader, if_neg hs]
    exact congrArg String.mk (langCut_eq _)
  refine ⟨hchar, by decide, rfl, fun word => rfl, fun s hs => ?_⟩
  rw [hchar s hs]
  exact takeUntil_dashSemi_clean _

/-- Witness for c9_language_normalization at concrete headers. -/
theorem c9_language_normalization_witness :
    extractLanguageFromHeader "de-DE,de;q=0.8" =
      String.mk (takeUntil (fun c => c = '-' ∨ c = ';')
        (trimSpace (takeUntil (fun c => c = ',') "de-DE,de;q=0.8".data))) ∧
    (extractLanguageFromHeader "de-DE,de;q=0.8").data.contains '-' = false :=
  ⟨(c9_language_normalization).1 "de-DE,de;q=0.8" (by decide),
   ((c9_language_normalization).2.2.2.2 "de-DE,de;q=0.8" (by decide)).1⟩

/-! ### C2: candidate fallthrough and terminal failure -/

/-- Claim C2: the candidate loop processes candidates in order and stops at
the first parsable one; candidates with no text are skipped; an unparsable
candidate falls through to the next; an empty candidate sequence or an
exhausted loop yields the terminal failure value (success = false). -/
theorem c2_extraction_fallthrough :
    (∀ resp : GenerateContentResponse, resp.Candidates = [] →
      parseGeminiResponse resp = NewErrorResponse "No response from AI service") ∧
    (∀ candidate rest, candidateText candidate = none →
      parseCandidates (candidate :: rest) = parseCandidates rest) ∧
    (∀ candidate rest t, candidateText candidate = some t →
      unmarshalAiResponse (cleanResponseText t) = none →
      parseCandidates (candidate :: rest) = parseCandidates rest) ∧
    (∀ candidate rest t p, candidateText candidate = some t →
      unmarshalAiResponse (cleanResponseText t) = some p →
      parseCandidates (candidate :: rest) = classifyPayload p) ∧
    (∀ cs : List Candidate,
      (∀ c ∈ cs, ∀ t, candidateText c = some t →
        unmarshalAiResponse (cleanResponseText t) = none) →
      parseCandidates cs = NewErrorResponse "Failed to parse AI response") ∧
    ((NewErrorResponse "No response from AI service").Success = false ∧
      (NewErrorResponse "Failed to parse AI response").Success = false) := by
  have hskip : ∀ candidate rest, candidateText candidate = none →
      parseCandidates (candidate :: rest) = parseCandidates rest := by
    intro candidate rest h
    simp [parseCandidates, h]
  have hbad : ∀ candidate rest t, candidateText candidate = some t →
      unmarshalAiResponse (cleanResponseText t) = none →
      parseCandidates (candidate :: rest) = parseCandidates rest := by
    intro candidate rest t h hu
    simp [parseCandidates, h, hu]
  refine ⟨?_, hskip, hbad, ?_, ?_, by decide⟩
  · intro resp h
    simp [parseGeminiResponse, h]
  · intro candidate rest t p h hu
    simp [parseCandidates, h, hu]
  · intro cs hall
    induction cs with
    | nil => rfl
    | cons c rest ih =>
      have htail : parseCandidates rest = NewErrorResponse "Failed to parse AI response" :=
        ih (fun c2 hc2 => hall c2 (List.mem_cons_of_mem _ hc2))
      cases hct : candidateText c with
      | none => rw [hskip c rest hct, htail]
      | some t =>
        have hu := hall c (List.mem_cons_self c rest) t hct
        rw [hbad c rest t hct hu, htail]

/-- Witness for c2_extraction_fallthrough: a content-less candidate and a
brace-less candidate both fall through to the terminal failure. -/
theorem c2_extraction_fallthrough_witness :
    parseCandidates [⟨none⟩, ⟨some ⟨[⟨"no braces here"⟩]⟩⟩] =
      NewErrorResponse "Failed to parse AI response" := by
  refine c2_extraction_fallthrough.2.2.2.2.1 _ ?_
  intro c hc t hct
  simp only [List.mem_cons, List.not_mem_nil, or_false] at hc
  rcases hc with rfl | rfl
  · have hne : candidateText ⟨none⟩ = none := rfl
    rw [hne] at hct
    cases hct
  · have heq : candidateText ⟨some ⟨[⟨"no braces here"⟩]⟩⟩ = some "no braces here" := rfl
    rw [heq] at hct
    cases hct
    decide

/-! ### C4: the response invariant -/

/-- Every branch of the candidate loop returns one of the two response
constructors. -/
theorem parseCandidates_cases (cs : List Candidate) :
    (∃ e, parseCandidates cs = NewErrorResponse e) ∨
    (∃ d, parseCandidates cs = NewSuccessResponse d) := by
  induction cs with
  | nil => exact Or.inl ⟨"Failed to parse AI response", rfl⟩
  | cons c rest ih =>
    cases hct : candidateText c with
    | none => simpa [parseCandidates, hct] using ih
    | some t =>
      cases hu : unmarshalAiResponse (cleanResponseText t) with
      | none => simpa [parseCandidates, hct, hu] using ih
      | some p =>
        by_cases hp : p.Error
        · exact Or.inl ⟨p.ErrorMessage, by simp [parseCandidates, hct, hu, classifyPayload, hp]⟩
        · exact Or.inr ⟨p.Data, by simp [parseCandidates, hct, hu, classifyPayload, hp]⟩

/-- Both response constructors satisfy the weak invariant. -/
theorem weakInvariant_constructors :
    (∀ e, weakInvariant (NewErrorResponse e)) ∧
    (∀ d, weakInvariant (NewSuccessResponse d)) := by
  constructor
  · intro e
    refine ⟨?_, ?_, ?_, ?_⟩
    · intro h; simp [NewErrorResponse] at h
    · intro _; rfl
    · intro h; simp [NewErrorResponse] at h
    · intro _; rfl
  · intro d
    refine ⟨?_, ?_, ?_, ?_⟩
    · intro _; rfl
    · intro h; simp [NewSuccessResponse] at h
    · intro _; rfl
    · intro h; simp [NewSuccessResponse] at h

/-- The extractor always produces a weak-invariant response. -/
theorem parseGeminiResponse_weakInvariant (raw : GenerateContentResponse) :
    weakInvariant (parseGeminiResponse raw) := by
  rw [parseGeminiResponse]
  by_cases h : raw.Candidates.isEmpty
  · simp only [h, if_true]
    exact weakInvariant_constructors.1 _
  · simp only [h, if_false]
    rcases parseCandidates_cases raw.Candidates with ⟨e, he⟩ | ⟨d, hd⟩
    · rw [he]; exact weakInvariant_constructors.1 e
    · rw [hd]; exact weakInvariant_constructors.2 d

/-- Claim C4 counterexample: a model-reported error with no errorMessage
yields a failure response whose error string is empty, violating the
claimed invariant that the error is non-empty exactly on failure. -/
theorem c4_counterexample :
    ¬ respInvariant (parseGeminiResponse (singleCandidate "\x7b\"error\":true\x7d")) := by
  intro h
  have hs : (parseGeminiResponse (singleCandidate "\x7b\"error\":true\x7d")).Success = false := by
    decide
  have he : (parseGeminiResponse (singleCandidate "\x7b\"error\":true\x7d")).Error = "" := by
    decide
  exact absurd he (by simpa [he] using h.1.2 hs)

/-- Claim C4 (amended): every response the pipeline produces satisfies the
weak invariant — data populated only on success, error empty on success,
data empty on failure — and the error string is additionally non-empty on
the validation-failure and AI-failure branches and for both constructors
whenever the message supplied is non-empty; only a model-reported error
with an empty message escapes the full invariant. -/
theorem c4_invariant_amended (request : ArticleRequest) (raw : GenerateContentResponse)
    (msg : String) :
    weakInvariant (Execute request (Except.ok (parseGeminiResponse raw))).1 ∧
    weakInvariant (Execute request (Except.error msg)).1 ∧
    (request.IsValid = false →
      (Execute request (Except.ok (parseGeminiResponse raw))).1 =
        NewErrorResponse "Word cannot be empty") ∧
    (request.IsValid = true →
      (Execute request (Except.error msg)).1 =
        NewErrorResponse "Failed to process request") ∧
    (∀ data, respInvariant (NewSuccessResponse data)) ∧
    (∀ e, e ≠ "" → respInvariant (NewErrorResponse e)) := by
  refine ⟨?_, ?_, ?_, ?_, ?_, ?_⟩
  · by_cases h : request.IsValid
    · have : (Execute request (Except.ok (parseGeminiResponse raw))).1 =
          parseGeminiResponse raw := by simp [Execute, h]
      rw [this]
      exact parseGeminiResponse_weakInvariant raw
    · have : (Execute request (Except.ok (parseGeminiResponse raw))).1 =
          NewErrorResponse "Word cannot be empty" := by simp [Execute, h]
      rw [this]
      exact weakInvariant_constructors.1 _
  · by_cases h : request.IsValid
    · have : (Execute request (Except.error msg)).1 =
          NewErrorResponse "Failed to process request" := by simp [Execute, h]
      rw [this]
      exact weakInvariant_constructors.1 _
    · have : (Execute request (Except.error msg)).1 =
          NewErrorResponse "Word cannot be empty" := by simp [Execute, h]
      rw [this]
      exact weakInvariant_constructors.1 _
  · intro h
    simp [Execute, h]
  · intro h
    simp [Execute, h]
  · intro data
    exact ⟨by simp [NewSuccessResponse], fun h => by simp [NewSuccessResponse]⟩
  · intro e he
    exact ⟨by simp [NewErrorResponse, he], fun h => by simp [NewErrorResponse] at h⟩

/-- Witness for c4_invariant_amended at concrete inputs. -/
theorem c4_invariant_amended_witness :
    weakInvariant (Execute ⟨"Haus", "en"⟩
      (Except.ok (parseGeminiResponse (singleCandidate "\x7b\"error\":false\x7d")))).1 ∧
    ((⟨"Haus", "en"⟩ : ArticleRequest).IsValid = true →
      (Execute ⟨"Haus", "en"⟩ (Except.error "down")).1 =
        NewErrorResponse "Failed to process request") :=
  ⟨(c4_invariant_amended ⟨"Haus", "en"⟩ (singleCandidate "\x7b\"error\":false\x7d") "down").1,
   (c4_invariant_amended ⟨"Haus", "en"⟩ (singleCandidate "\x7b\"error\":false\x7d") "down").2.2.2.1⟩

/-! ### C6: chat formatter structure -/

/-- A string with a non-empty literal prefix is non-empty. -/
theorem bulletLine_ne_empty (s : String) : "• <b>" ++ s ≠ "" := by
  intro h
  have := congrArg String.data h
  simp at this

/-- An append with a non-empty right part is non-empty. -/
theorem append_ne_empty_right (a b : String) (hb : b ≠ "") : a ++ b ≠ "" := by
  intro h
  have hd := congrArg String.data h
  simp only [String.data_append] at hd
  rcases List.append_eq_nil.1 hd with ⟨_, h2⟩
  exact hb (String.ext h2)

/-- One case group of the wr helper, as the three imperative steps,
rewritten to the accumulated group text followed by its separator. -/
theorem wrGroup_eq (s : String) (c1 c2 : Prop) [Decidable c1] [Decidable c2]
    (l1 l2 : String) :
    wrSepStep (wrWriteStep (wrWriteStep (s, false) c1 l1) c2 l2) =
      (s ++ ((if c1 then l1 else "") ++ ((if c2 then l2 else "") ++
        (if c1 ∨ c2 then "\n" else ""))), false) := by
  by_cases h1 : c1 <;> by_cases h2 : c2 <;>
    simp [wrWriteStep, wrSepStep, h1, h2, String.append_assoc]

/-- The genitive group of the wr helper has no separator step. -/
theorem wrGroupLast_eq (s : String) (c1 c2 : Prop) [Decidable c1] [Decidable c2]
    (l1 l2 : String) :
    (wrWriteStep (wrWriteStep (s, false) c1 l1) c2 l2).1 =
      s ++ ((if c1 then l1 else "") ++ (if c2 then l2 else "")) := by
  by_cases h1 : c1 <;> by_cases h2 : c2 <;>
    simp [wrWriteStep, h1, h2, String.append_assoc]

/-- A stepped group with non-empty lines equals the clean group followed
by its conditional separator. -/
theorem wrGroup_bridge (c1 c2 : Prop) [Decidable c1] [Decidable c2] (l1 l2 : String)
    (h1 : l1 ≠ "") (h2 : l2 ≠ "") :
    (if c1 then l1 else "") ++ ((if c2 then l2 else "") ++
      (if c1 ∨ c2 then "\n" else "")) =
      withSep ((if c1 then l1 else "") ++ (if c2 then l2 else "")) := by
  have h12 : l1 ++ l2 ≠ "" := by
    intro h
    have hd := congrArg String.data h
    simp only [String.data_append] at hd
    rcases List.append_eq_nil.1 hd with ⟨ha, _⟩
    exact h1 (String.ext ha)
  by_cases hc1 : c1 <;> by_cases hc2 : c2 <;>
    simp [withSep, hc1, hc2, h1, h2, h12, String.append_assoc]

/-- The bridge at the concrete line shape emitted by wr. -/
theorem wrGroup_bridge_line (c1 c2 : Prop) [Decidable c1] [Decidable c2] (a b : String) :
    (if c1 then a ++ "</i>\n" else "") ++ ((if c2 then b ++ "</i>\n" else "") ++
      (if c1 ∨ c2 then "\n" else "")) =
      withSep ((if c1 then a ++ "</i>\n" else "") ++ (if c2 then b ++ "</i>\n" else "")) :=
  wrGroup_bridge c1 c2 _ _ (append_ne_empty_right a "</i>\n" (by decide))
    (append_ne_empty_right b "</i>\n" (by decide))

/-- The redundant struct-non-zero conjunct of a wr condition follows from
the non-empty example field (nominative). -/
theorem wrCond_nom (t : TranslationsInfo) :
    (t ≠ emptyTranslationsInfo ∧ t.NominativeExample ≠ "" ∧ t.NominativeTranslation ≠ "") ↔
      (t.NominativeExample ≠ "" ∧ t.NominativeTranslation ≠ "") := by
  constructor
  · exact fun h => h.2
  · exact fun h => ⟨fun heq => h.1 (by rw [heq]; rfl), h⟩

/-- The redundant struct-non-zero conjunct (accusative). -/
theorem wrCond_acc (t : TranslationsInfo) :
    (t ≠ emptyTranslationsInfo ∧ t.AccusativeExample ≠ "" ∧ t.AccusativeTranslation ≠ "") ↔
      (t.AccusativeExample ≠ "" ∧ t.AccusativeTranslation ≠ "") := by
  constructor
  · exact fun h => h.2
  · exact fun h => ⟨fun heq => h.1 (by rw [heq]; rfl), h⟩

/-- The redundant struct-non-zero conjunct (dative). -/
theorem wrCond_dat (t : TranslationsInfo) :
    (t ≠ emptyTranslationsInfo ∧ t.DativeExample ≠ "" ∧ t.DativeTranslation ≠ "") ↔
      (t.DativeExample ≠ "" ∧ t.DativeTranslation ≠ "") := by
  constructor
  · exact fun h => h.2
  · exact fun h => ⟨fun heq => h.1 (by rw [heq]; rfl), h⟩

/-- The redundant struct-non-zero conjunct (genitive). -/
theorem wrCond_gen (t : TranslationsInfo) :
    (t ≠ emptyTranslationsInfo ∧ t.GenitiveExample ≠ "" ∧ t.GenitiveTranslation ≠ "") ↔
      (t.GenitiveExample ≠ "" ∧ t.GenitiveTranslation ≠ "") := by
  constructor
  · exact fun h => h.2
  · exact fun h => ⟨fun heq => h.1 (by rw [heq]; rfl), h⟩

/-- The wr helper equals its clean form: four case groups in the fixed
order nominative, accusative, dative, genitive; in each group the definite
line precedes the indefinite line; a line is emitted exactly when both its
example and its translation are non-empty; and a blank-line separator
follows every populated group except the genitive one. -/
theorem wr_eq_wrClean (info : ExampleInfo) : wr info = wrClean info := by
  rw [wr]
  simp only [wrCond_nom, wrCond_acc, wrCond_dat, wrCond_gen]
  rw [wrGroup_eq, wrGroup_eq, wrGroup_eq, wrGroupLast_eq]
  rw [wrGroup_bridge_line, wrGroup_bridge_line, wrGroup_bridge_line]
  rw [wrClean, nominativeGroup, accusativeGroup, dativeGroup, genitiveGroup, caseGroup,
    caseGroup, caseGroup, caseGroup]
  simp only [String.empty_append, String.append_assoc]

/-- Claim C6 (amended): on a success response with data the formatter runs
the per-interpretation loop, and within every example block the wr helper
renders exactly the clean structure: the four grammatical cases in the
fixed order nominative, accusative, dative, genitive, each case as a
definite line followed by an indefinite line, a line emitted exactly when
both its example and its translation are non-empty, and a blank-line
separator after each populated case group other than the genitive one —
also when no later group follows, so the rendered output can end in a
trailing blank line. -/
theorem c6_formatter_structure (r : ArticleResponse) (hs : r.Success = true)
    (hd : r.Data ≠ []) :
    formatResponse r = formatDataLoop true r.Data ∧
    (∀ info : ExampleInfo, wr info = wrClean info) := by
  constructor
  · rw [formatResponse, hs]
    simp [hd]
  · exact wr_eq_wrClean

/-- Witness for c6_formatter_structure on a concrete success response. -/
theorem c6_formatter_structure_witness :
    formatResponse (NewSuccessResponse [emptyArticleInfo]) =
      formatDataLoop true (NewSuccessResponse [emptyArticleInfo]).Data ∧
    wr emptyExampleInfo = wrClean emptyExampleInfo :=
  ⟨(c6_formatter_structure (NewSuccessResponse [emptyArticleInfo]) rfl (by decide)).1,
   (c6_formatter_structure (NewSuccessResponse [emptyArticleInfo]) rfl (by decide)).2
     emptyExampleInfo⟩

/-- Claim C6 counterexample: with only the nominative pair populated the
separator after the nominative group is still written, so the rendered
output ends with a blank line — trailing whitespace the claim forbids. -/
theorem c6_counterexample :
    formatResponse (NewSuccessResponse [⟨"das Haus", "house",
        ⟨⟨⟨"a", "b", "", "", "", "", "", ""⟩, emptyTranslationsInfo⟩, emptyExampleInfo⟩⟩]) =
      "🇩🇪 <b>das Haus</b>\n📖 <i>house</i>\n\n📝 <b>Singular Examples:</b>\n• <b>Nominative Definite:</b> a / <i>b</i>\n\n" ∧
    (formatResponse (NewSuccessResponse [⟨"das Haus", "house",
        ⟨⟨⟨"a", "b", "", "", "", "", "", ""⟩, emptyTranslationsInfo⟩,
          emptyExampleInfo⟩⟩])).data.reverse.take 2 = ['\n', '\n'] := by
  constructor <;> decide

/-! ### C1: payload location and repair -/

/-- The head of a non-empty dropWhile result falsifies the predicate. -/
theorem dropWhile_head?_spec (p : Char → Bool) (l : List Char)
    (h : l.dropWhile p ≠ []) :
    ∃ x, (l.dropWhile p).head? = some x ∧ p x = false := by
  cases hd : (l.dropWhile p).head? with
  | none => exact absurd (List.head?_eq_none_iff.1 hd) h
  | some x =>
    have hw := List.head?_dropWhile_not p l
    rw [hd] at hw
    exact ⟨x, rfl, hw⟩

/-- The brace match of a text decomposes it as a brace-free prefix, the
match (running from the leftmost opening brace to the rightmost closing
brace), and a close-brace-free suffix. -/
theorem extractBraced_spec (s : List Char) (hne : extractBraced s ≠ []) :
    ∃ pre post, s = pre ++ extractBraced s ++ post ∧
      '\x7b' ∉ pre ∧ '\x7d' ∉ post ∧
      (extractBraced s).head? = some '\x7b' ∧
      (extractBraced s).getLast? = some '\x7d' := by
  have hBrev : extractBraced s =
      ((s.dropWhile (fun c => c ≠ '\x7b')).reverse.dropWhile (fun c => c ≠ '\x7d')).reverse :=
    rfl
  have hBne : (s.dropWhile (fun c => c ≠ '\x7b')).reverse.dropWhile (fun c => c ≠ '\x7d') ≠
      [] := by
    intro h
    exact hne (by rw [hBrev, h]; rfl)
  have hAsplit : s.takeWhile (fun c => c ≠ '\x7b') ++ s.dropWhile (fun c => c ≠ '\x7b') = s :=
    List.takeWhile_append_dropWhile ..
  have hArevsplit :
      (s.dropWhile (fun c => c ≠ '\x7b')).reverse.takeWhile (fun c => c ≠ '\x7d') ++
        (s.dropWhile (fun c => c ≠ '\x7b')).reverse.dropWhile (fun c => c ≠ '\x7d') =
        (s.dropWhile (fun c => c ≠ '\x7b')).reverse :=
    List.takeWhile_append_dropWhile ..
  have hAeq : s.dropWhile (fun c => c ≠ '\x7b') =
      extractBraced s ++
        ((s.dropWhile (fun c => c ≠ '\x7b')).reverse.takeWhile (fun c => c ≠ '\x7d')).reverse := by
    rw [hBrev, ← List.reverse_append, hArevsplit, List.reverse_reverse]
  have hAne : s.dropWhile (fun c => c ≠ '\x7b') ≠ [] := by
    intro h
    rw [h] at hAeq
    rcases List.append_eq_nil.1 hAeq.symm with ⟨h1, _⟩
    exact hne h1
  obtain ⟨a, haeq, hap⟩ := dropWhile_head?_spec (fun c => c ≠ '\x7b') s hAne
  obtain ⟨b, hbeq, hbp⟩ := dropWhile_head?_spec (fun c => c ≠ '\x7d')
    (s.dropWhile (fun c => c ≠ '\x7b')).reverse hBne
  have ha : a = '\x7b' := by simpa using hap
  have hb : b = '\x7d' := by simpa using hbp
  subst ha hb
  refine ⟨s.takeWhile (fun c => c ≠ '\x7b'),
    ((s.dropWhile (fun c => c ≠ '\x7b')).reverse.takeWhile (fun c => c ≠ '\x7d')).reverse,
    ?_, ?_, ?_, ?_, ?_⟩
  · conv_lhs => rw [← hAsplit, hAeq]
    rw [List.append_assoc]
  · intro hm
    have := List.mem_takeWhile_imp hm
    simp at this
  · intro hm
    rw [List.mem_reverse] at hm
    have := List.mem_takeWhile_imp hm
    simp at this
  · have : (s.dropWhile (fun c => c ≠ '\x7b')).head? = some '\x7b' := haeq
    rw [hAeq, List.head?_append] at this
    cases hx : (extractBraced s).head? with
    | none =>
      exact absurd (List.head?_eq_none_iff.1 hx) (by rw [hBrev]; simpa using hBne)
    | some x =>
      rw [hx] at this
      simpa using this
  · rw [hBrev, List.getLast?_reverse]
    exact hbeq

/-- A brace-delimited text wrapped in a brace-free prefix (prose or a code
fence) and a close-brace-free suffix extracts to exactly the inner text. -/
theorem extractBraced_wrapped (pre inner post : List Char)
    (hpre : '\x7b' ∉ pre) (hpost : '\x7d' ∉ post)
    (hh : inner.head? = some '\x7b') (hl : inner.getLast? = some '\x7d') :
    extractBraced (pre ++ inner ++ post) = inner := by
  obtain ⟨t, rfl⟩ : ∃ t, inner = '\x7b' :: t := by
    cases inner with
    | nil => cases hh
    | cons a u => exact ⟨u, by cases hh; rfl⟩
  obtain ⟨v, hv⟩ : ∃ v, ('\x7b' :: t).reverse = '\x7d' :: v := by
    have hrh : ('\x7b' :: t).reverse.head? = some '\x7d' := by
      rw [List.head?_reverse]
      exact hl
    cases hrev : ('\x7b' :: t).reverse with
    | nil => rw [hrev] at hrh; cases hrh
    | cons b v =>
      rw [hrev] at hrh
      exact ⟨v, by cases hrh; rfl⟩
  have h1 : (pre ++ ('\x7b' :: t) ++ post).dropWhile (fun c => c ≠ '\x7b') =
      ('\x7b' :: t) ++ post := by
    rw [List.append_assoc, List.dropWhile_append_of_pos
      (fun a ha => by simp; exact fun h => hpre (h ▸ ha))]
    rw [List.cons_append, List.dropWhile_cons_of_neg (by simp), ← List.cons_append]
  have h2 : (('\x7b' :: t) ++ post).reverse.dropWhile (fun c => c ≠ '\x7d') =
      ('\x7b' :: t).reverse := by
    rw [List.reverse_append, List.dropWhile_append_of_pos
      (fun a ha => by simp; exact fun h => hpost (h ▸ (List.mem_reverse.1 ha)))]
    rw [hv, List.dropWhile_cons_of_neg (by simp)]
  rw [extractBraced, h1, h2, List.reverse_reverse]

/-- Claim C1: the extractor takes the substring from the leftmost opening
brace through the rightmost closing brace, trims whitespace and deletes
trailing commas before a closing brace or bracket prior to parsing; hence
it extracts JSON wrapped in prose or code fences unchanged, and parses a
payload with a trailing comma exactly like the payload without it. -/
theorem c1_extraction_pipeline :
    (∀ t : String, cleanResponseText t =
      String.mk (removeTrailingCommas (trimSpace (extractBraced t.data)))) ∧
    (∀ s : List Char, extractBraced s ≠ [] →
      ∃ pre post, s = pre ++ extractBraced s ++ post ∧
        '\x7b' ∉ pre ∧ '\x7d' ∉ post ∧
        (extractBraced s).head? = some '\x7b' ∧
        (extractBraced s).getLast? = some '\x7d') ∧
    (∀ pre inner post : List Char, '\x7b' ∉ pre → '\x7d' ∉ post →
      inner.head? = some '\x7b' → inner.getLast? = some '\x7d' →
      cleanResponseText (String.mk (pre ++ inner ++ post)) =
        cleanResponseText (String.mk inner)) ∧
    (unmarshalAiResponse (cleanResponseText "\x7b\"a\":1,\x7d") =
      unmarshalAiResponse (cleanResponseText "\x7b\"a\":1\x7d") ∧
    (unmarshalAiResponse (cleanResponseText "\x7b\"a\":1,\x7d")).isSome = true) := by
  refine ⟨fun t => rfl, extractBraced_spec, ?_, by decide, by decide⟩
  intro pre inner post hpre hpost hh hl
  have hwrap := extractBraced_wrapped pre inner post hpre hpost hh hl
  have hself : extractBraced inner = inner := by
    have := extractBraced_wrapped [] inner [] (by simp) (by simp) hh hl
    simpa using this
  rw [cleanResponseText, cleanResponseText]
  rw [show (String.mk (pre ++ inner ++ post)).data = pre ++ inner ++ post from rfl]
  rw [show (String.mk inner).data = inner from rfl]
  rw [hwrap, hself]

/-- Witness for c1_extraction_pipeline: a Markdown-fenced payload extracts
to the braced text itself. -/
theorem c1_extraction_pipeline_witness :
    cleanResponseText (String.mk ("```json\n".data ++ "\x7b\"error\":false\x7d".data ++
        "\n```".data)) =
      cleanResponseText (String.mk "\x7b\"error\":false\x7d".data) :=
  c1_extraction_pipeline.2.2.1 "```json\n".data "\x7b\"error\":false\x7d".data "\n```".data
    (by decide) (by decide) (by decide) (by decide)

/-! ### C8: prompt compilation -/

/-- Folding safe characters through the escaper is plain concatenation. -/
theorem htmlEscape_foldl (l : List Char) (acc : String)
    (h : ∀ c ∈ l, htmlSafeChar c = true) :
    l.foldl (fun acc c => acc ++ htmlEscapeChar c) acc = acc ++ String.mk l := by
  induction l generalizing acc with
  | nil => exact (String.append_empty acc).symm
  | cons c t ih =>
    have hc := h c (List.mem_cons_self c t)
    simp only [htmlSafeChar, decide_eq_true_eq, not_or] at hc
    have hesc : htmlEscapeChar c = String.singleton c := by
      simp [htmlEscapeChar, hc.1, hc.2.1, hc.2.2.1, hc.2.2.2.1, hc.2.2.2.2.1, hc.2.2.2.2.2]
    rw [List.foldl_cons, hesc, ih _ (fun c2 hc2 => h c2 (List.mem_cons_of_mem _ hc2))]
    rw [String.append_assoc]
    congr 1

/-- Safe strings pass through the escaper unchanged. -/
theorem htmlEscape_safe (s : String) (h : htmlSafe s = true) : htmlEscape s = s := by
  rw [htmlEscape, htmlEscape_foldl s.data ""
    (by simpa [htmlSafe, List.all_eq_true] using h)]
  rw [String.empty_append]

/-- Claim C8 (amended): for every request whose word and language are free
of HTML-special characters, the compiled prompt is the fixed template with
the literal word and language substituted unchanged into every slot;
interpolation runs through the html/template text escaper, so special
characters do not survive literally. -/
theorem c8_prompt_substitution (w l : String) (hw : htmlSafe w = true)
    (hl : htmlSafe l = true) :
    compilePrompt ⟨w, l⟩ = compilePromptLiteral w l := by
  rw [compilePrompt, compilePromptLiteral]
  have hf : renderPiece (ArticleRequest.mk w l).Word (ArticleRequest.mk w l).Language =
      renderPieceLiteral w l := by
    funext piece
    cases piece with
    | lit s => rfl
    | word => exact htmlEscape_safe w hw
    | lang => exact htmlEscape_safe l hl
  rw [hf]

/-- Witness for c8_prompt_substitution at a concrete request. -/
theorem c8_prompt_substitution_witness :
    compilePrompt ⟨"Haus", "en"⟩ = compilePromptLiteral "Haus" "en" :=
  c8_prompt_substitution "Haus" "en" (by decide) (by decide)

set_option maxRecDepth 40000 in
/-- Claim C8 counterexample: the template does interpolate the word, yet
for the word consisting of the single character < the compiled prompt does
not contain that character at all — the escaper replaced it — so the
prompt does not contain the literal request word. -/
theorem c8_counterexample :
    PromptPiece.word ∈ promptTemplate ∧ '<' ∉ (compilePrompt ⟨"<", "en"⟩).data := by
  constructor
  · decide
  · decide

/-! ### C7: marshal / extract round trip -/

/-- Hex digits below 16 decode back to their value. -/
theorem hexVal_hexDigit : ∀ x < 16, hexVal (hexDigit x) = some x := by
  decide

/-- The escaped form of a string body, followed by the closing quote and
any rest, parses back to exactly that body. -/
theorem parseStrF_escape : ∀ (s : List Char) (fuel : Nat) (rest : List Char),
    (escapeString s).length + 1 < fuel →
    parseStrF fuel (escapeString s ++ '"' :: rest) = some (s, rest) := by
  intro s
  induction s with
  | nil =>
    intro fuel rest h
    obtain ⟨f1, rfl⟩ : ∃ f1, fuel = f1 + 1 := ⟨fuel - 1, by omega⟩
    simp [escapeString, parseStrF]
  | cons c cs ih =>
    intro fuel rest h
    have heq : escapeString (c :: cs) = escapeChar c ++ escapeString cs := rfl
    rw [heq] at h ⊢
    by_cases hq : c = '"'
    · subst hq
      have hec : escapeChar '"' = ['\\', '"'] := by decide
      rw [hec] at h ⊢
      simp only [List.length_append, List.length_cons] at h
      obtain ⟨f2, rfl⟩ : ∃ f2, fuel = f2 + 2 := ⟨fuel - 2, by simp at h; omega⟩
      have hstep : parseStrF (f2 + 2) (['\\', '"'] ++ (escapeString cs ++ '"' :: rest)) =
          (parseStrF f2 (escapeString cs ++ '"' :: rest)).map
            (fun p => ('"' :: p.1, p.2)) := by
        simp [parseStrF, parseEscF, hexVal]
      rw [List.append_assoc]
      rw [hstep, ih f2 rest (by simp at h; omega)]
      rfl
    ·
      by_cases hbs : c = '\\'
      · subst hbs
        have hec : escapeChar '\\' = ['\\', '\\'] := by decide
        rw [hec] at h ⊢
        simp only [List.length_append, List.length_cons] at h
        obtain ⟨f2, rfl⟩ : ∃ f2, fuel = f2 + 2 := ⟨fuel - 2, by simp at h; omega⟩
        have hstep : parseStrF (f2 + 2) (['\\', '\\'] ++ (escapeString cs ++ '"' :: rest)) =
            (parseStrF f2 (escapeString cs ++ '"' :: rest)).map
              (fun p => ('\\' :: p.1, p.2)) := by
          simp [parseStrF, parseEscF, hexVal]
        rw [List.append_assoc]
        rw [hstep, ih f2 rest (by simp at h; omega)]
        rfl
      ·
        by_cases hn : c = '\n'
        · subst hn
          have hec : escapeChar '\n' = ['\\', 'n'] := by decide
          rw [hec] at h ⊢
          simp only [List.length_append, List.length_cons] at h
          obtain ⟨f2, rfl⟩ : ∃ f2, fuel = f2 + 2 := ⟨fuel - 2, by simp at h; omega⟩
          have hstep : parseStrF (f2 + 2) (['\\', 'n'] ++ (escapeString cs ++ '"' :: rest)) =
              (parseStrF f2 (escapeString cs ++ '"' :: rest)).map
                (fun p => ('\n' :: p.1, p.2)) := by
            simp [parseStrF, parseEscF, hexVal]
          rw [List.append_assoc]
          rw [hstep, ih f2 rest (by simp at h; omega)]
          rfl
        ·
          by_cases hr : c = '\r'
          · subst hr
            have hec : escapeChar '\r' = ['\\', 'r'] := by decide
            rw [hec] at h ⊢
            simp only [List.length_append, List.length_cons] at h
            obtain ⟨f2, rfl⟩ : ∃ f2, fuel = f2 + 2 := ⟨fuel - 2, by simp at h; omega⟩
            have hstep : parseStrF (f2 + 2) (['\\', 'r'] ++ (escapeString cs ++ '"' :: rest)) =
                (parseStrF f2 (escapeString cs ++ '"' :: rest)).map
                  (fun p => ('\r' :: p.1, p.2)) := by
              simp [parseStrF, parseEscF, hexVal]
            rw [List.append_assoc]
            rw [hstep, ih f2 rest (by simp at h; omega)]
            rfl
          ·
            by_cases ht : c = '\t'
            · subst ht
              have hec : escapeChar '\t' = ['\\', 't'] := by decide
              rw [hec] at h ⊢
              simp only [List.length_append, List.length_cons] at h
              obtain ⟨f2, rfl⟩ : ∃ f2, fuel = f2 + 2 := ⟨fuel - 2, by simp at h; omega⟩
              have hstep : parseStrF (f2 + 2) (['\\', 't'] ++ (escapeString cs ++ '"' :: rest)) =
                  (parseStrF f2 (escapeString cs ++ '"' :: rest)).map
                    (fun p => ('\t' :: p.1, p.2)) := by
                simp [parseStrF, parseEscF, hexVal]
              rw [List.append_assoc]
              rw [hstep, ih f2 rest (by simp at h; omega)]
              rfl
            ·
              by_cases hlt : c = '<'
              · subst hlt
                have hec : escapeChar '<' = ['\\', 'u', '0', '0', '3', 'c'] := by decide
                rw [hec] at h ⊢
                simp only [List.length_append, List.length_cons] at h
                obtain ⟨f2, rfl⟩ : ∃ f2, fuel = f2 + 6 := ⟨fuel - 6, by simp at h; omega⟩
                have hstep : parseStrF (f2 + 6) (['\\', 'u', '0', '0', '3', 'c'] ++ (escapeString cs ++ '"' :: rest)) =
                    (parseStrF (f2 + 4) (escapeString cs ++ '"' :: rest)).map
                      (fun p => ('<' :: p.1, p.2)) := by
                  simp [parseStrF, parseEscF, hexVal]
                rw [List.append_assoc]
                rw [hstep, ih (f2 + 4) rest (by simp at h; omega)]
                rfl
              ·
                by_cases hgt : c = '>'
                · subst hgt
                  have hec : escapeChar '>' = ['\\', 'u', '0', '0', '3', 'e'] := by decide
                  rw [hec] at h ⊢
                  simp only [List.length_append, List.length_cons] at h
                  obtain ⟨f2, rfl⟩ : ∃ f2, fuel = f2 + 6 := ⟨fuel - 6, by simp at h; omega⟩
                  have hstep : parseStrF (f2 + 6) (['\\', 'u', '0', '0', '3', 'e'] ++ (escapeString cs ++ '"' :: rest)) =
                      (parseStrF (f2 + 4) (escapeString cs ++ '"' :: rest)).map
                        (fun p => ('>' :: p.1, p.2)) := by
                    simp [parseStrF, parseEscF, hexVal]
                  rw [List.append_assoc]
                  rw [hstep, ih (f2 + 4) rest (by simp at h; omega)]
                  rfl
                ·
                  by_cases hamp : c = '&'
                  · subst hamp
                    have hec : escapeChar '&' = ['\\', 'u', '0', '0', '2', '6'] := by decide
                    rw [hec] at h ⊢
                    simp only [List.length_append, List.length_cons] at h
                    obtain ⟨f2, rfl⟩ : ∃ f2, fuel = f2 + 6 := ⟨fuel - 6, by simp at h; omega⟩
                    have hstep : parseStrF (f2 + 6) (['\\', 'u', '0', '0', '2', '6'] ++ (escapeString cs ++ '"' :: rest)) =
                        (parseStrF (f2 + 4) (escapeString cs ++ '"' :: rest)).map
                          (fun p => ('&' :: p.1, p.2)) := by
                      simp [parseStrF, parseEscF, hexVal]
                    rw [List.append_assoc]
                    rw [hstep, ih (f2 + 4) rest (by simp at h; omega)]
                    rfl
                  ·
                    by_cases hctl : c.toNat < 0x20
                    · have hec : escapeChar c =
                          ['\\', 'u', '0', '0', hexDigit (c.toNat / 16), hexDigit (c.toNat % 16)] := by
                        have hlt2 : ¬ c = '<' := fun he => absurd (he ▸ hctl) (by decide)
                        have hgt2 : ¬ c = '>' := fun he => absurd (he ▸ hctl) (by decide)
                        have hamp2 : ¬ c = '&' := fun he => absurd (he ▸ hctl) (by decide)
                        simp [escapeChar, hq, hbs, hn, hr, ht, hlt2, hgt2, hamp2, hctl]
                      rw [hec] at h ⊢
                      simp only [List.length_append, List.length_cons] at h
                      obtain ⟨f2, rfl⟩ : ∃ f2, fuel = f2 + 2 := ⟨fuel - 2, by simp at h; omega⟩
                      have hd1 : hexVal (hexDigit (c.toNat / 16)) = some (c.toNat / 16) :=
                        hexVal_hexDigit _ (by omega)
                      have hd2 : hexVal (hexDigit (c.toNat % 16)) = some (c.toNat % 16) :=
                        hexVal_hexDigit _ (by omega)
                      have hnn : c.toNat / 16 * 16 + c.toNat % 16 = c.toNat := by
                        omega
                      have hnosur : ¬ (0xd800 ≤ c.toNat ∧ c.toNat < 0xe000) := by omega
                      have hstep : parseStrF (f2 + 2)
                          (['\\', 'u', '0', '0', hexDigit (c.toNat / 16), hexDigit (c.toNat % 16)] ++
                            (escapeString cs ++ '"' :: rest)) =
                          (parseStrF f2 (escapeString cs ++ '"' :: rest)).map
                            (fun p => (c :: p.1, p.2)) := by
                        simp only [List.cons_append, List.nil_append]
                        have h0 : hexVal '0' = some 0 := rfl
                        simp [parseStrF, parseEscF, h0, hd1, hd2, hnn, hnosur]
                      rw [List.append_assoc]
                      rw [hstep, ih f2 rest (by simp at h; omega)]
                      rfl
                    ·
                      by_cases h2028 : c.toNat = 0x2028
                      · have hc2 : c = Char.ofNat 0x2028 := by rw [← Char.ofNat_toNat c, h2028]
                        subst hc2
                        have hec : escapeChar (Char.ofNat 0x2028) = ['\\', 'u', '2', '0', '2', '8'] := by decide
                        rw [hec] at h ⊢
                        simp only [List.length_append, List.length_cons] at h
                        obtain ⟨f2, rfl⟩ : ∃ f2, fuel = f2 + 2 := ⟨fuel - 2, by simp at h; omega⟩
                        have hstep : parseStrF (f2 + 2) (['\\', 'u', '2', '0', '2', '8'] ++ (escapeString cs ++ '"' :: rest)) =
                            (parseStrF f2 (escapeString cs ++ '"' :: rest)).map
                              (fun p => (Char.ofNat 0x2028 :: p.1, p.2)) := by
                          simp [parseStrF, parseEscF, hexVal]
                        rw [List.append_assoc]
                        rw [hstep, ih f2 rest (by simp at h; omega)]
                        rfl
                      ·
                        by_cases h2029 : c.toNat = 0x2029
                        · have hc2 : c = Char.ofNat 0x2029 := by rw [← Char.ofNat_toNat c, h2029]
                          subst hc2
                          have hec : escapeChar (Char.ofNat 0x2029) = ['\\', 'u', '2', '0', '2', '9'] := by decide
                          rw [hec] at h ⊢
                          simp only [List.length_append, List.length_cons] at h
                          obtain ⟨f2, rfl⟩ : ∃ f2, fuel = f2 + 2 := ⟨fuel - 2, by simp at h; omega⟩
                          have hstep : parseStrF (f2 + 2) (['\\', 'u', '2', '0', '2', '9'] ++ (escapeString cs ++ '"' :: rest)) =
                              (parseStrF f2 (escapeString cs ++ '"' :: rest)).map
                                (fun p => (Char.ofNat 0x2029 :: p.1, p.2)) := by
                            simp [parseStrF, parseEscF, hexVal]
                          rw [List.append_assoc]
                          rw [hstep, ih f2 rest (by simp at h; omega)]
                          rfl
                        ·
                          have hec : escapeChar c = [c] := by
                            simp [escapeChar, hq, hbs, hn, hr, ht, hlt, hgt, hamp, hctl, h2028, h2029]
                          rw [hec] at h ⊢
                          simp only [List.length_append, List.length_cons] at h
                          obtain ⟨f2, rfl⟩ : ∃ f2, fuel = f2 + 1 := ⟨fuel - 1, by simp at h; omega⟩
                          have hstep : parseStrF (f2 + 1) ([c] ++ (escapeString cs ++ '"' :: rest)) =
                              (parseStrF f2 (escapeString cs ++ '"' :: rest)).map
                                (fun p => (c :: p.1, p.2)) := by
                            simp only [List.cons_append, List.nil_append]
                            rw [parseStrF]
                            simp [hq, hbs, hctl]
                          rw [List.append_assoc]
                          rw [hstep, ih f2 rest (by simp at h; omega)]
                          rfl

/-- Rebuilding a string from its character data is the identity. -/
theorem stringMk_data (s : String) : String.mk s.data = s := by
  cases s
  rfl

/-- The wrapped string parser accepts an escaped body directly. -/
theorem parseStr_escape (s rest : List Char) :
    parseStr (escapeString s ++ '"' :: rest) = some (s, rest) := by
  rw [parseStr]
  exact parseStrF_escape s _ rest (by simp)

/-- A marshaled string literal parses to the string value. -/
theorem valParses_str (s : List Char) : ValParses (quoteString s) (Json.str s) := by
  constructor
  · simp [quoteString]
  · intro fuel rest h
    obtain ⟨f1, rfl⟩ : ∃ f1, fuel = f1 + 1 := ⟨fuel - 1, by omega⟩
    have harr : quoteString s ++ rest = '"' :: (escapeString s ++ '"' :: rest) := by
      simp [quoteString]
    rw [harr, parseVal]
    simp [List.dropWhile_cons, isJsonWs, parseStr_escape]

/-- A marshaled bool parses to the bool value. -/
theorem valParses_bool (b : Bool) : ValParses (marshalBool b) (Json.bool b) := by
  constructor
  · cases b <;> simp [marshalBool]
  · intro fuel rest h
    obtain ⟨f1, rfl⟩ : ∃ f1, fuel = f1 + 1 := ⟨fuel - 1, by omega⟩
    cases b <;> simp [marshalBool, parseVal, List.dropWhile_cons, isJsonWs]

/-- A rendered member parses to its key/value pair. -/
theorem parseMember_render (k vt : List Char) (v : Json) (hval : ValParses vt v) :
    ∀ fuel rest, (renderMemberOne (k, vt)).length < fuel →
      parseMember fuel (renderMemberOne (k, vt) ++ rest) = some ((k, v), rest) := by
  intro fuel rest h
  obtain ⟨f1, rfl⟩ : ∃ f1, fuel = f1 + 1 := ⟨fuel - 1, by omega⟩
  have harr : renderMemberOne (k, vt) ++ rest =
      '"' :: (escapeString k ++ '"' :: (':' :: (vt ++ rest))) := by
    simp [renderMemberOne, quoteString]
  have hlen : (renderMemberOne (k, vt)).length =
      (escapeString k).length + vt.length + 3 := by
    simp [renderMemberOne, quoteString]
    omega
  rw [hlen] at h
  have hv := hval.2 f1 rest (by omega)
  rw [harr, parseMember]
  simp [List.dropWhile_cons, isJsonWs, parseStr_escape, hv]

/-- Rendered member tails parse to the member list. -/
theorem parseObjTail_render (ms : List (List Char × List Char × Json))
    (hvals : ∀ m ∈ ms, ValParses m.2.1 m.2.2) :
    ∀ fuel rest, (renderMembersTail (ms.map (fun m => (m.1, m.2.1)))).length < fuel →
      parseObjTail fuel (renderMembersTail (ms.map (fun m => (m.1, m.2.1))) ++ rest) =
        some (ms.map (fun m => (m.1, m.2.2)), rest) := by
  induction ms with
  | nil =>
    intro fuel rest h
    obtain ⟨f1, rfl⟩ : ∃ f1, fuel = f1 + 1 := ⟨fuel - 1, by omega⟩
    simp [renderMembersTail, parseObjTail, List.dropWhile_cons, isJsonWs]
  | cons m tail ih =>
    intro fuel rest h
    obtain ⟨f1, rfl⟩ : ∃ f1, fuel = f1 + 1 := ⟨fuel - 1, by omega⟩
    have hm := hvals m (List.mem_cons_self m tail)
    have harr : renderMembersTail ((m :: tail).map (fun m => (m.1, m.2.1))) ++ rest =
        ',' :: (renderMemberOne (m.1, m.2.1) ++
          (renderMembersTail (tail.map (fun m => (m.1, m.2.1))) ++ rest)) := by
      simp [renderMembersTail]
    have hlen : (renderMembersTail ((m :: tail).map (fun m => (m.1, m.2.1)))).length =
        1 + (renderMemberOne (m.1, m.2.1)).length +
          (renderMembersTail (tail.map (fun m => (m.1, m.2.1)))).length := by
      simp [renderMembersTail]
      omega
    rw [hlen] at h
    have hmem := parseMember_render m.1 m.2.1 m.2.2 hm f1
      (renderMembersTail (tail.map (fun m => (m.1, m.2.1))) ++ rest) (by omega)
    have htail := ih (fun m2 hm2 => hvals m2 (List.mem_cons_of_mem m hm2)) f1 rest (by omega)
    rw [harr, parseObjTail]
    simp [List.dropWhile_cons, isJsonWs, hmem, htail]

/-- A rendered object parses to the object value. -/
theorem valParses_obj (ms : List (List Char × List Char × Json))
    (hvals : ∀ m ∈ ms, ValParses m.2.1 m.2.2) :
    ValParses (renderMembers (ms.map (fun m => (m.1, m.2.1))))
      (Json.obj (ms.map (fun m => (m.1, m.2.2)))) := by
  constructor
  · simp [renderMembers]
  · intro fuel rest h
    obtain ⟨f1, rfl⟩ : ∃ f1, fuel = f1 + 1 := ⟨fuel - 1, by omega⟩
    cases ms with
    | nil => simp [renderMembers, parseVal, List.dropWhile_cons, isJsonWs]
    | cons m tail =>
      have hm := hvals m (List.mem_cons_self m tail)
      have harr : renderMembers ((m :: tail).map (fun m => (m.1, m.2.1))) ++ rest =
          '\x7b' :: (renderMemberOne (m.1, m.2.1) ++
            (renderMembersTail (tail.map (fun m => (m.1, m.2.1))) ++ rest)) := by
        simp [renderMembers]
      have hlen : (renderMembers ((m :: tail).map (fun m => (m.1, m.2.1)))).length =
          1 + (renderMemberOne (m.1, m.2.1)).length +
            (renderMembersTail (tail.map (fun m => (m.1, m.2.1)))).length := by
        simp [renderMembers]
        omega
      rw [hlen] at h
      have hmem := parseMember_render m.1 m.2.1 m.2.2 hm f1
        (renderMembersTail (tail.map (fun m => (m.1, m.2.1))) ++ rest) (by omega)
      have hhead : renderMemberOne (m.1, m.2.1) ++
          (renderMembersTail (tail.map (fun m => (m.1, m.2.1))) ++ rest) =
          '"' :: (escapeString m.1 ++ '"' :: (':' :: (m.2.1 ++
            (renderMembersTail (tail.map (fun m => (m.1, m.2.1))) ++ rest)))) := by
        simp [renderMemberOne, quoteString]
      have hmem2 := hhead ▸ hmem
      have htail := parseObjTail_render tail
        (fun m2 hm2 => hvals m2 (List.mem_cons_of_mem m hm2)) f1 rest (by omega)
      rw [harr, parseVal]
      rw [hhead]
      simp [List.dropWhile_cons, isJsonWs, hmem2, htail]

/-- Rendered element tails parse to the element list (elements here are
marshaled objects, so they open with a brace). -/
theorem parseArrTail_render (es : List (List Char × Json))
    (hvals : ∀ e ∈ es, ValParses e.1 e.2)
    (hheads : ∀ e ∈ es, ∃ R, e.1 = '\x7b' :: R) :
    ∀ fuel rest, (renderElemsTail (es.map (fun e => e.1))).length < fuel →
      parseArrTail fuel (renderElemsTail (es.map (fun e => e.1)) ++ rest) =
        some (es.map (fun e => e.2), rest) := by
  induction es with
  | nil =>
    intro fuel rest h
    obtain ⟨f1, rfl⟩ : ∃ f1, fuel = f1 + 1 := ⟨fuel - 1, by omega⟩
    simp [renderElemsTail, parseArrTail, List.dropWhile_cons, isJsonWs]
  | cons e tail ih =>
    intro fuel rest h
    obtain ⟨f1, rfl⟩ : ∃ f1, fuel = f1 + 1 := ⟨fuel - 1, by omega⟩
    have he := hvals e (List.mem_cons_self e tail)
    have harr : renderElemsTail ((e :: tail).map (fun e => e.1)) ++ rest =
        ',' :: (e.1 ++ (renderElemsTail (tail.map (fun e => e.1)) ++ rest)) := by
      simp [renderElemsTail]
    have hlen : (renderElemsTail ((e :: tail).map (fun e => e.1))).length =
        1 + e.1.length + (renderElemsTail (tail.map (fun e => e.1))).length := by
      simp [renderElemsTail]
      omega
    rw [hlen] at h
    have hval := he.2 f1 (renderElemsTail (tail.map (fun e => e.1)) ++ rest) (by omega)
    have htail := ih (fun e2 he2 => hvals e2 (List.mem_cons_of_mem e he2))
      (fun e2 he2 => hheads e2 (List.mem_cons_of_mem e he2)) f1 rest (by omega)
    rw [harr, parseArrTail]
    simp [List.dropWhile_cons, isJsonWs, hval, htail]

/-- A rendered non-empty array of marshaled objects parses to the array
value. -/
theorem valParses_arr (es : List (List Char × Json))
    (hvals : ∀ e ∈ es, ValParses e.1 e.2)
    (hheads : ∀ e ∈ es, ∃ R, e.1 = '\x7b' :: R) :
    ValParses (renderElems (es.map (fun e => e.1))) (Json.arr (es.map (fun e => e.2))) := by
  constructor
  · simp [renderElems]
  · intro fuel rest h
    obtain ⟨f1, rfl⟩ : ∃ f1, fuel = f1 + 1 := ⟨fuel - 1, by omega⟩
    cases es with
    | nil => simp [renderElems, parseVal, List.dropWhile_cons, isJsonWs]
    | cons e tail =>
      have he := hvals e (List.mem_cons_self e tail)
      obtain ⟨R, hR⟩ := hheads e (List.mem_cons_self e tail)
      have harr : renderElems ((e :: tail).map (fun e => e.1)) ++ rest =
          '[' :: (e.1 ++ (renderElemsTail (tail.map (fun e => e.1)) ++ rest)) := by
        simp [renderElems]
      have hlen : (renderElems ((e :: tail).map (fun e => e.1))).length =
          1 + e.1.length + (renderElemsTail (tail.map (fun e => e.1))).length := by
        simp [renderElems]
        omega
      rw [hlen] at h
      have hval := he.2 f1 (renderElemsTail (tail.map (fun e => e.1)) ++ rest) (by omega)
      have hval2 : parseVal f1 ('\x7b' :: (R ++
          (renderElemsTail (tail.map (fun e => e.1)) ++ rest))) =
          some (e.2, renderElemsTail (tail.map (fun e => e.1)) ++ rest) := by
        rw [← List.cons_append, ← hR]
        exact hval
      have htail := parseArrTail_render tail
        (fun e2 he2 => hvals e2 (List.mem_cons_of_mem e he2))
        (fun e2 he2 => hheads e2 (List.mem_cons_of_mem e he2)) f1 rest (by omega)
      rw [harr, parseVal]
      rw [hR, List.cons_append]
      simp [List.dropWhile_cons, isJsonWs, hval2, htail]

/-- A marshaled TranslationsInfo parses to its JSON value. -/
theorem valParses_translations (t : TranslationsInfo) :
    ValParses (marshalTranslationsInfo t) (jsonOfTranslationsInfo t) := by
  have h := valParses_obj
    ((translationsFields t).map (fun m => (m.1, quoteString m.2, Json.str m.2)))
    (by
      intro m hm
      simp only [List.mem_map] at hm
      obtain ⟨a, _, rfl⟩ := hm
      exact valParses_str a.2)
  simpa [marshalTranslationsInfo, jsonOfTranslationsInfo, List.map_map, Function.comp]
    using h

/-- A marshaled ExampleInfo parses to its JSON value. -/
theorem valParses_exampleInfo (e : ExampleInfo) :
    ValParses (marshalExampleInfo e) (jsonOfExampleInfo e) := by
  have h := valParses_obj
    [("definite".data, marshalTranslationsInfo e.Definite, jsonOfTranslationsInfo e.Definite),
     ("indefinite".data, marshalTranslationsInfo e.Indefinite,
      jsonOfTranslationsInfo e.Indefinite)]
    (by
      intro m hm
      simp only [List.mem_cons, List.not_mem_nil, or_false] at hm
      rcases hm with rfl | rfl
      · exact valParses_translations e.Definite
      · exact valParses_translations e.Indefinite)
  simpa [marshalExampleInfo, jsonOfExampleInfo] using h

/-- A marshaled ExamplesInfo parses to its JSON value. -/
theorem valParses_examplesInfo (e : ExamplesInfo) :
    ValParses (marshalExamplesInfo e) (jsonOfExamplesInfo e) := by
  have h := valParses_obj
    [("singular".data, marshalExampleInfo e.Singular, jsonOfExampleInfo e.Singular),
     ("plural".data, marshalExampleInfo e.Plural, jsonOfExampleInfo e.Plural)]
    (by
      intro m hm
      simp only [List.mem_cons, List.not_mem_nil, or_false] at hm
      rcases hm with rfl | rfl
      · exact valParses_exampleInfo e.Singular
      · exact valParses_exampleInfo e.Plural)
  simpa [marshalExamplesInfo, jsonOfExamplesInfo] using h

/-- A marshaled ArticleInfo parses to its JSON value. -/
theorem valParses_articleInfo (info : ArticleInfo) :
    ValParses (marshalArticleInfo info) (jsonOfArticleInfo info) := by
  have h := valParses_obj
    [("wordWithArticle".data, quoteString info.WordWithArticle.data,
      Json.str info.WordWithArticle.data),
     ("translation".data, quoteString info.Translation.data, Json.str info.Translation.data),
     ("example".data, marshalExamplesInfo info.Example, jsonOfExamplesInfo info.Example)]
    (by
      intro m hm
      simp only [List.mem_cons, List.not_mem_nil, or_false] at hm
      rcases hm with rfl | rfl | rfl
      · exact valParses_str info.WordWithArticle.data
      · exact valParses_str info.Translation.data
      · exact valParses_examplesInfo info.Example)
  simpa [marshalArticleInfo, jsonOfArticleInfo] using h

/-- Marshaled ArticleInfo texts open with a brace. -/
theorem marshalArticleInfo_head (info : ArticleInfo) :
    ∃ R, marshalArticleInfo info = '\x7b' :: R :=
  ⟨_, rfl⟩

/-- A marshaled data slice parses to the array of its elements. -/
theorem valParses_dataArray (ds : List ArticleInfo) :
    ValParses (renderElems (ds.map marshalArticleInfo))
      (Json.arr (ds.map jsonOfArticleInfo)) := by
  have h := valParses_arr (ds.map (fun d => (marshalArticleInfo d, jsonOfArticleInfo d)))
    (by
      intro e he
      simp only [List.mem_map] at he
      obtain ⟨d, _, rfl⟩ := he
      exact valParses_articleInfo d)
    (by
      intro e he
      simp only [List.mem_map] at he
      obtain ⟨d, _, rfl⟩ := he
      exact marshalArticleInfo_head d)
  simpa [List.map_map, Function.comp] using h

/-- A marshaled success response parses to its JSON value. -/
theorem valParses_marshalSuccess (data : List ArticleInfo) :
    ValParses (marshalArticleResponse (NewSuccessResponse data))
      (jsonOfArticleResponse (NewSuccessResponse data)) := by
  by_cases hd : data.isEmpty
  · have hobj := valParses_obj
      [("success".data, marshalBool true, Json.bool true)]
      (by
        intro m hm
        simp only [List.mem_cons, List.not_mem_nil, or_false] at hm
        subst hm
        exact valParses_bool true)
    simpa [marshalArticleResponse, jsonOfArticleResponse, NewSuccessResponse, hd] using hobj
  · have hobj := valParses_obj
      [("success".data, marshalBool true, Json.bool true),
       ("data".data, renderElems (data.map marshalArticleInfo),
        Json.arr (data.map jsonOfArticleInfo))]
      (by
        intro m hm
        simp only [List.mem_cons, List.not_mem_nil, or_false] at hm
        rcases hm with rfl | rfl
        · exact valParses_bool true
        · exact valParses_dataArray data)
    simpa [marshalArticleResponse, jsonOfArticleResponse, NewSuccessResponse, hd] using hobj

/-- A text that parses as a value with nothing left passes the full-input
syntax check. -/
theorem parseJsonText_valParses (txt : List Char) (v : Json) (h : ValParses txt v) :
    parseJsonText txt = some v := by
  have h2 := h.2 (txt.length + 1) [] (by omega)
  rw [List.append_nil] at h2
  rw [parseJsonText, h2]
  simp

/-- Rendered member tails end with the closing brace. -/
theorem renderMembersTail_shape (ms : List (List Char × List Char)) :
    ∃ B, renderMembersTail ms = B ++ ['\x7d'] := by
  induction ms with
  | nil => exact ⟨[], rfl⟩
  | cons m tail ih =>
    obtain ⟨B, hB⟩ := ih
    exact ⟨',' :: (renderMemberOne m ++ B), by simp [renderMembersTail, hB]⟩

/-- A rendered object is a brace-wrapped body. -/
theorem renderMembers_shape (ms : List (List Char × List Char)) :
    ∃ mid, renderMembers ms = '\x7b' :: (mid ++ ['\x7d']) := by
  cases ms with
  | nil => exact ⟨[], rfl⟩
  | cons m tail =>
    obtain ⟨B, hB⟩ := renderMembersTail_shape tail
    exact ⟨renderMemberOne m ++ B, by simp [renderMembers, hB]⟩

/-- A marshaled ArticleResponse is a brace-wrapped body. -/
theorem marshalArticleResponse_shape (r : ArticleResponse) :
    ∃ mid, marshalArticleResponse r = '\x7b' :: (mid ++ ['\x7d']) := by
  rw [marshalArticleResponse]
  exact renderMembers_shape _

/-- The brace-match extraction is the identity on brace-wrapped texts. -/
theorem extractBraced_braced (mid : List Char) :
    extractBraced ('\x7b' :: (mid ++ ['\x7d'])) = '\x7b' :: (mid ++ ['\x7d']) := by
  rw [extractBraced]
  rw [List.dropWhile_cons_of_neg (by decide)]
  have h1 : ('\x7b' :: (mid ++ ['\x7d'])).reverse = '\x7d' :: (mid.reverse ++ ['\x7b']) := by
    simp
  rw [h1, List.dropWhile_cons_of_neg (by decide), ← h1, List.reverse_reverse]

/-- Whitespace trimming is the identity on brace-wrapped texts. -/
theorem trimSpace_braced (mid : List Char) :
    trimSpace ('\x7b' :: (mid ++ ['\x7d'])) = '\x7b' :: (mid ++ ['\x7d']) := by
  rw [trimSpace]
  rw [List.dropWhile_cons_of_neg (by decide)]
  have h1 : ('\x7b' :: (mid ++ ['\x7d'])).reverse = '\x7d' :: (mid.reverse ++ ['\x7b']) := by
    simp
  rw [h1, List.dropWhile_cons_of_neg (by decide), ← h1, List.reverse_reverse]

/-- Folding members distributes over list append as an Option bind. -/
theorem decodeTranslationsMembers_append (cur : TranslationsInfo)
    (l1 l2 : List (List Char × Json)) :
    decodeTranslationsMembers cur (l1 ++ l2) =
      (decodeTranslationsMembers cur l1).bind
        (fun c => decodeTranslationsMembers c l2) := by
  induction l1 generalizing cur with
  | nil => simp [decodeTranslationsMembers]
  | cons m tail ih =>
    obtain ⟨k, v⟩ := m
    cases h : applyTranslationsMember cur k v with
    | none => simp [decodeTranslationsMembers, h]
    | some c2 => simp [decodeTranslationsMembers, h, ih]

/-- The decoder action of the "nominativeExample" member. -/
theorem applyTranslations_k1 (cur : TranslationsInfo) (s : List Char) :
    applyTranslationsMember cur ['n', 'o', 'm', 'i', 'n', 'a', 't', 'i', 'v', 'e', 'E', 'x', 'a', 'm', 'p', 'l', 'e'] (Json.str s) =
      some { cur with NominativeExample := String.mk s } := by
  rw [applyTranslationsMember]
  simp +decide [decodeStringField]

/-- The decoder action of the "nominativeTranslation" member. -/
theorem applyTranslations_k2 (cur : TranslationsInfo) (s : List Char) :
    applyTranslationsMember cur ['n', 'o', 'm', 'i', 'n', 'a', 't', 'i', 'v', 'e', 'T', 'r', 'a', 'n', 's', 'l', 'a', 't', 'i', 'o', 'n'] (Json.str s) =
      some { cur with NominativeTranslation := String.mk s } := by
  rw [applyTranslationsMember]
  simp +decide [decodeStringField]

/-- The decoder action of the "accusativeExample" member. -/
theorem applyTranslations_k3 (cur : TranslationsInfo) (s : List Char) :
    applyTranslationsMember cur ['a', 'c', 'c', 'u', 's', 'a', 't', 'i', 'v', 'e', 'E', 'x', 'a', 'm', 'p', 'l', 'e'] (Json.str s) =
      some { cur with AccusativeExample := String.mk s } := by
  rw [applyTranslationsMember]
  simp +decide [decodeStringField]

/-- The decoder action of the "accusativeTranslation" member. -/
theorem applyTranslations_k4 (cur : TranslationsInfo) (s : List Char) :
    applyTranslationsMember cur ['a', 'c', 'c', 'u', 's', 'a', 't', 'i', 'v', 'e', 'T', 'r', 'a', 'n', 's', 'l', 'a', 't', 'i', 'o', 'n'] (Json.str s) =
      some { cur with AccusativeTranslation := String.mk s } := by
  rw [applyTranslationsMember]
  simp +decide [decodeStringField]

/-- The decoder action of the "dativeExample" member. -/
theorem applyTranslations_k5 (cur : TranslationsInfo) (s : List Char) :
    applyTranslationsMember cur ['d', 'a', 't', 'i', 'v', 'e', 'E', 'x', 'a', 'm', 'p', 'l', 'e'] (Json.str s) =
      some { cur with DativeExample := String.mk s } := by
  rw [applyTranslationsMember]
  simp +decide [decodeStringField]

/-- The decoder action of the "dativeTranslation" member. -/
theorem applyTranslations_k6 (cur : TranslationsInfo) (s : List Char) :
    applyTranslationsMember cur ['d', 'a', 't', 'i', 'v', 'e', 'T', 'r', 'a', 'n', 's', 'l', 'a', 't', 'i', 'o', 'n'] (Json.str s) =
      some { cur with DativeTranslation := String.mk s } := by
  rw [applyTranslationsMember]
  simp +decide [decodeStringField]

/-- The decoder action of the "genitiveExample" member. -/
theorem applyTranslations_k7 (cur : TranslationsInfo) (s : List Char) :
    applyTranslationsMember cur ['g', 'e', 'n', 'i', 't', 'i', 'v', 'e', 'E', 'x', 'a', 'm', 'p', 'l', 'e'] (Json.str s) =
      some { cur with GenitiveExample := String.mk s } := by
  rw [applyTranslationsMember]
  simp +decide [decodeStringField]

/-- The decoder action of the "genitiveTranslation" member. -/
theorem applyTranslations_k8 (cur : TranslationsInfo) (s : List Char) :
    applyTranslationsMember cur ['g', 'e', 'n', 'i', 't', 'i', 'v', 'e', 'T', 'r', 'a', 'n', 's', 'l', 'a', 't', 'i', 'o', 'n'] (Json.str s) =
      some { cur with GenitiveTranslation := String.mk s } := by
  rw [applyTranslationsMember]
  simp +decide [decodeStringField]

/-- The decoder action of the optional "nominativeExample" chunk of a marshaled
TranslationsInfo. -/
theorem decodeTranslations_c1 (cur : TranslationsInfo) (s : String) (h : cur.NominativeExample = "") :
    decodeTranslationsMembers cur
      ((if s ≠ "" then [("nominativeExample".data, s.data)] else []).map
        (fun m => (m.1, Json.str m.2))) =
      some { cur with NominativeExample := s } := by
  by_cases hs : s = ""
  · subst hs
    obtain ⟨f1, f2, f3, f4, f5, f6, f7, f8⟩ := cur
    simp only at h
    subst h
    simp [decodeTranslationsMembers]
  · simp [hs, decodeTranslationsMembers, applyTranslations_k1, stringMk_data]

/-- The decoder action of the optional "nominativeTranslation" chunk of a marshaled
TranslationsInfo. -/
theorem decodeTranslations_c2 (cur : TranslationsInfo) (s : String) (h : cur.NominativeTranslation = "") :
    decodeTranslationsMembers cur
      ((if s ≠ "" then [("nominativeTranslation".data, s.data)] else []).map
        (fun m => (m.1, Json.str m.2))) =
      some { cur with NominativeTranslation := s } := by
  by_cases hs : s = ""
  · subst hs
    obtain ⟨f1, f2, f3, f4, f5, f6, f7, f8⟩ := cur
    simp only at h
    subst h
    simp [decodeTranslationsMembers]
  · simp [hs, decodeTranslationsMembers, applyTranslations_k2, stringMk_data]

/-- The decoder action of the optional "accusativeExample" chunk of a marshaled
TranslationsInfo. -/
theorem decodeTranslations_c3 (cur : TranslationsInfo) (s : String) (h : cur.AccusativeExample = "") :
    decodeTranslationsMembers cur
      ((if s ≠ "" then [("accusativeExample".data, s.data)] else []).map
        (fun m => (m.1, Json.str m.2))) =
      some { cur with AccusativeExample := s } := by
  by_cases hs : s = ""
  · subst hs
    obtain ⟨f1, f2, f3, f4, f5, f6, f7, f8⟩ := cur
    simp only at h
    subst h
    simp [decodeTranslationsMembers]
  · simp [hs, decodeTranslationsMembers, applyTranslations_k3, stringMk_data]

/-- The decoder action of the optional "accusativeTranslation" chunk of a marshaled
TranslationsInfo. -/
theorem decodeTranslations_c4 (cur : TranslationsInfo) (s : String) (h : cur.AccusativeTranslation = "") :
    decodeTranslationsMembers cur
      ((if s ≠ "" then [("accusativeTranslation".data, s.data)] else []).map
        (fun m => (m.1, Json.str m.2))) =
      some { cur with AccusativeTranslation := s } := by
  by_cases hs : s = ""
  · subst hs
    obtain ⟨f1, f2, f3, f4, f5, f6, f7, f8⟩ := cur
    simp only at h
    subst h
    simp [decodeTranslationsMembers]
  · simp [hs, decodeTranslationsMembers, applyTranslations_k4, stringMk_data]

/-- The decoder action of the optional "dativeExample" chunk of a marshaled
TranslationsInfo. -/
theorem decodeTranslations_c5 (cur : TranslationsInfo) (s : String) (h : cur.DativeExample = "") :
    decodeTranslationsMembers cur
      ((if s ≠ "" then [("dativeExample".data, s.data)] else []).map
        (fun m => (m.1, Json.str m.2))) =
      some { cur with DativeExample := s } := by
  by_cases hs : s = ""
  · subst hs
    obtain ⟨f1, f2, f3, f4, f5, f6, f7, f8⟩ := cur
    simp only at h
    subst h
    simp [decodeTranslationsMembers]
  · simp [hs, decodeTranslationsMembers, applyTranslations_k5, stringMk_data]

/-- The decoder action of the optional "dativeTranslation" chunk of a marshaled
TranslationsInfo. -/
theorem decodeTranslations_c6 (cur : TranslationsInfo) (s : String) (h : cur.DativeTranslation = "") :
    decodeTranslationsMembers cur
      ((if s ≠ "" then [("dativeTranslation".data, s.data)] else []).map
        (fun m => (m.1, Json.str m.2))) =
      some { cur with DativeTranslation := s } := by
  by_cases hs : s = ""
  · subst hs
    obtain ⟨f1, f2, f3, f4, f5, f6, f7, f8⟩ := cur
    simp only at h
    subst h
    simp [decodeTranslationsMembers]
  · simp [hs, decodeTranslationsMembers, applyTranslations_k6, stringMk_data]

/-- The decoder action of the optional "genitiveExample" chunk of a marshaled
TranslationsInfo. -/
theorem decodeTranslations_c7 (cur : TranslationsInfo) (s : String) (h : cur.GenitiveExample = "") :
    decodeTranslationsMembers cur
      ((if s ≠ "" then [("genitiveExample".data, s.data)] else []).map
        (fun m => (m.1, Json.str m.2))) =
      some { cur with GenitiveExample := s } := by
  by_cases hs : s = ""
  · subst hs
    obtain ⟨f1, f2, f3, f4, f5, f6, f7, f8⟩ := cur
    simp only at h
    subst h
    simp [decodeTranslationsMembers]
  · simp [hs, decodeTranslationsMembers, applyTranslations_k7, stringMk_data]

/-- The decoder action of the optional "genitiveTranslation" chunk of a marshaled
TranslationsInfo. -/
theorem decodeTranslations_c8 (cur : TranslationsInfo) (s : String) (h : cur.GenitiveTranslation = "") :
    decodeTranslationsMembers cur
      ((if s ≠ "" then [("genitiveTranslation".data, s.data)] else []).map
        (fun m => (m.1, Json.str m.2))) =
      some { cur with GenitiveTranslation := s } := by
  by_cases hs : s = ""
  · subst hs
    obtain ⟨f1, f2, f3, f4, f5, f6, f7, f8⟩ := cur
    simp only at h
    subst h
    simp [decodeTranslationsMembers]
  · simp [hs, decodeTranslationsMembers, applyTranslations_k8, stringMk_data]

/-- Decoding a marshaled TranslationsInfo into the zero value recovers it. -/
theorem decodeTranslations_roundtrip (t : TranslationsInfo) :
    decodeTranslationsInto emptyTranslationsInfo (jsonOfTranslationsInfo t) = some t := by
  obtain ⟨f1, f2, f3, f4, f5, f6, f7, f8⟩ := t
  simp only [jsonOfTranslationsInfo, decodeTranslationsInto, translationsFields,
    List.map_append, decodeTranslationsMembers_append]
  rw [decodeTranslations_c1 _ _ rfl]
  simp only [Option.some_bind]
  rw [decodeTranslations_c2 _ _ rfl]
  simp only [Option.some_bind]
  rw [decodeTranslations_c3 _ _ rfl]
  simp only [Option.some_bind]
  rw [decodeTranslations_c4 _ _ rfl]
  simp only [Option.some_bind]
  rw [decodeTranslations_c5 _ _ rfl]
  simp only [Option.some_bind]
  rw [decodeTranslations_c6 _ _ rfl]
  simp only [Option.some_bind]
  rw [decodeTranslations_c7 _ _ rfl]
  simp only [Option.some_bind]
  rw [decodeTranslations_c8 _ _ rfl]

/-- The decoder action of the "definite" member. -/
theorem applyExample_kDef (cur : ExampleInfo) (v : Json) :
    applyExampleMember cur ['d', 'e', 'f', 'i', 'n', 'i', 't', 'e'] v =
      (decodeTranslationsInto cur.Definite v).map (fun t => { cur with Definite := t }) := by
  rw [applyExampleMember]
  simp +decide

/-- The decoder action of the "indefinite" member. -/
theorem applyExample_kIndef (cur : ExampleInfo) (v : Json) :
    applyExampleMember cur ['i', 'n', 'd', 'e', 'f', 'i', 'n', 'i', 't', 'e'] v =
      (decodeTranslationsInto cur.Indefinite v).map
        (fun t => { cur with Indefinite := t }) := by
  rw [applyExampleMember]
  simp +decide

/-- Decoding a marshaled ExampleInfo into the zero value recovers it. -/
theorem decodeExample_roundtrip (e : ExampleInfo) :
    decodeExampleInto emptyExampleInfo (jsonOfExampleInfo e) = some e := by
  obtain ⟨d, i⟩ := e
  simp [jsonOfExampleInfo, decodeExampleInto, decodeExampleMembers, applyExample_kDef,
    applyExample_kIndef, emptyExampleInfo, decodeTranslations_roundtrip]

/-- The decoder action of the "singular" member. -/
theorem applyExamples_kSing (cur : ExamplesInfo) (v : Json) :
    applyExamplesMember cur ['s', 'i', 'n', 'g', 'u', 'l', 'a', 'r'] v =
      (decodeExampleInto cur.Singular v).map (fun e => { cur with Singular := e }) := by
  rw [applyExamplesMember]
  simp +decide

/-- The decoder action of the "plural" member. -/
theorem applyExamples_kPlur (cur : ExamplesInfo) (v : Json) :
    applyExamplesMember cur ['p', 'l', 'u', 'r', 'a', 'l'] v =
      (decodeExampleInto cur.Plural v).map (fun e => { cur with Plural := e }) := by
  rw [applyExamplesMember]
  simp +decide

/-- Decoding a marshaled ExamplesInfo into the zero value recovers it. -/
theorem decodeExamples_roundtrip (e : ExamplesInfo) :
    decodeExamplesInto emptyExamplesInfo (jsonOfExamplesInfo e) = some e := by
  obtain ⟨s, p⟩ := e
  simp [jsonOfExamplesInfo, decodeExamplesInto, decodeExamplesMembers, applyExamples_kSing,
    applyExamples_kPlur, emptyExamplesInfo, decodeExample_roundtrip]

/-- The decoder action of the "wordWithArticle" member. -/
theorem applyArticleInfo_kWord (cur : ArticleInfo) (v : Json) :
    applyArticleInfoMember cur
        ['w', 'o', 'r', 'd', 'W', 'i', 't', 'h', 'A', 'r', 't', 'i', 'c', 'l', 'e'] v =
      (decodeStringField v cur.WordWithArticle).map
        (fun s => { cur with WordWithArticle := s }) := by
  rw [applyArticleInfoMember]
  simp +decide

/-- The decoder action of the "translation" member. -/
theorem applyArticleInfo_kTrans (cur : ArticleInfo) (v : Json) :
    applyArticleInfoMember cur ['t', 'r', 'a', 'n', 's', 'l', 'a', 't', 'i', 'o', 'n'] v =
      (decodeStringField v cur.Translation).map
        (fun s => { cur with Translation := s }) := by
  rw [applyArticleInfoMember]
  simp +decide

/-- The decoder action of the "example" member. -/
theorem applyArticleInfo_kEx (cur : ArticleInfo) (v : Json) :
    applyArticleInfoMember cur ['e', 'x', 'a', 'm', 'p', 'l', 'e'] v =
      (decodeExamplesInto cur.Example v).map (fun e => { cur with Example := e }) := by
  rw [applyArticleInfoMember]
  simp +decide

/-- Decoding a marshaled ArticleInfo into the zero value recovers it. -/
theorem decodeArticleInfo_roundtrip (info : ArticleInfo) :
    decodeArticleInfoInto emptyArticleInfo (jsonOfArticleInfo info) = some info := by
  obtain ⟨w, t, e⟩ := info
  simp [jsonOfArticleInfo, decodeArticleInfoInto, decodeArticleInfoMembers,
    applyArticleInfo_kWord, applyArticleInfo_kTrans, applyArticleInfo_kEx, emptyArticleInfo,
    decodeStringField, stringMk_data, decodeExamples_roundtrip]

/-- Decoding a marshaled data slice recovers it element-wise. -/
theorem decodeArticleInfoList_map (ds : List ArticleInfo) :
    decodeArticleInfoList (ds.map jsonOfArticleInfo) = some ds := by
  induction ds with
  | nil => rfl
  | cons d tail ih => simp [decodeArticleInfoList, decodeArticleInfo_roundtrip, ih]

/-- The decoder skips the unknown "success" key of the aiResponse target. -/
theorem applyAiResponse_kSuccess (cur : AiResponse) (v : Json) :
    applyAiResponseMember cur ['s', 'u', 'c', 'c', 'e', 's', 's'] v = some cur := by
  rw [applyAiResponseMember]
  simp +decide

/-- The decoder action of the "data" member of the aiResponse target. -/
theorem applyAiResponse_kData (cur : AiResponse) (v : Json) :
    applyAiResponseMember cur ['d', 'a', 't', 'a'] v =
      (decodeDataField v cur.Data).map (fun d => { cur with Data := d }) := by
  rw [applyAiResponseMember]
  simp +decide

/-- Decoding the JSON of a marshaled success response into the zero-valued
aiResponse target yields a non-error payload carrying the same data. -/
theorem decodeAiSuccess (data : List ArticleInfo) :
    decodeAiResponseInto emptyAiResponse (jsonOfArticleResponse (NewSuccessResponse data)) =
      some ⟨false, "", data⟩ := by
  by_cases hd : data.isEmpty
  · have hnil : data = [] := by simpa [List.isEmpty_iff] using hd
    subst hnil
    simp +decide [jsonOfArticleResponse, NewSuccessResponse, decodeAiResponseInto,
      decodeAiResponseMembers, applyAiResponse_kSuccess, emptyAiResponse]
  · simp +decide [jsonOfArticleResponse, NewSuccessResponse, hd, decodeAiResponseInto,
      decodeAiResponseMembers, applyAiResponse_kSuccess, applyAiResponse_kData,
      decodeDataField, decodeArticleInfoList_map, emptyAiResponse]

/-- C7: extraction is idempotent on already-well-formed JSON, as long as
the trailing-comma repair leaves the canonical serialized form unchanged
(which holds whenever no string field contains a comma followed by
regexp whitespace and a closing brace or bracket): feeding the canonical
serialized success payload as a single candidate yields back a success
response carrying a structurally identical data slice. -/
theorem c7_roundtrip (data : List ArticleInfo)
    (hrt : removeTrailingCommas (marshalArticleResponse (NewSuccessResponse data)) =
      marshalArticleResponse (NewSuccessResponse data)) :
    parseGeminiResponse (singleCandidate
        (String.mk (marshalArticleResponse (NewSuccessResponse data)))) =
      NewSuccessResponse data := by
  obtain ⟨mid, hmid⟩ := marshalArticleResponse_shape (NewSuccessResponse data)
  have hne : String.mk (marshalArticleResponse (NewSuccessResponse data)) ≠ "" := by
    intro h
    have h2 := congrArg String.data h
    rw [hmid] at h2
    simp at h2
  have hct : candidateText ⟨some ⟨[⟨String.mk (marshalArticleResponse
      (NewSuccessResponse data))⟩]⟩⟩ =
      some (String.mk (marshalArticleResponse (NewSuccessResponse data))) := by
    rw [candidateText]
    simp [hne, String.empty_append]
  have hclean : cleanResponseText (String.mk (marshalArticleResponse
      (NewSuccessResponse data))) =
      String.mk (marshalArticleResponse (NewSuccessResponse data)) := by
    rw [cleanResponseText]
    have hdata : (String.mk (marshalArticleResponse (NewSuccessResponse data))).data =
        marshalArticleResponse (NewSuccessResponse data) := rfl
    rw [hdata, hmid, extractBraced_braced, trimSpace_braced, ← hmid, hrt]
  have hp : parseJsonText (marshalArticleResponse (NewSuccessResponse data)) =
      some (jsonOfArticleResponse (NewSuccessResponse data)) :=
    parseJsonText_valParses _ _ (valParses_marshalSuccess data)
  have hun : unmarshalAiResponse (String.mk (marshalArticleResponse
      (NewSuccessResponse data))) = some ⟨false, "", data⟩ := by
    rw [unmarshalAiResponse]
    have hdata : (String.mk (marshalArticleResponse (NewSuccessResponse data))).data =
        marshalArticleResponse (NewSuccessResponse data) := rfl
    rw [hdata, hp]
    exact decodeAiSuccess data
  simp [singleCandidate, parseGeminiResponse, parseCandidates, hct, hclean, hun,
    classifyPayload]

/-- Witness for C7: a concrete success payload whose serialized form the
trailing-comma repair leaves unchanged round-trips through extraction. -/
theorem c7_roundtrip_witness :
    removeTrailingCommas (marshalArticleResponse (NewSuccessResponse
        [⟨"der Hund", "dog", emptyExamplesInfo⟩])) =
      marshalArticleResponse (NewSuccessResponse [⟨"der Hund", "dog", emptyExamplesInfo⟩]) ∧
    parseGeminiResponse (singleCandidate (String.mk (marshalArticleResponse
        (NewSuccessResponse [⟨"der Hund", "dog", emptyExamplesInfo⟩])))) =
      NewSuccessResponse [⟨"der Hund", "dog", emptyExamplesInfo⟩] :=
  ⟨by decide, c7_roundtrip [⟨"der Hund", "dog", emptyExamplesInfo⟩] (by decide)⟩

set_option maxRecDepth 40000 in
/-- Counterexample to C7 as stated: a data payload whose word contains a
comma directly before a closing brace is corrupted by the trailing-comma
repair, so its canonical serialized form does not round-trip to an
identical structure. -/
theorem c7_counterexample :
    parseGeminiResponse (singleCandidate (String.mk (marshalArticleResponse
        (NewSuccessResponse [⟨"a,\x7d", "x", emptyExamplesInfo⟩])))) =
      NewSuccessResponse [⟨"a\x7d", "x", emptyExamplesInfo⟩] ∧
    parseGeminiResponse (singleCandidate (String.mk (marshalArticleResponse
        (NewSuccessResponse [⟨"a,\x7d", "x", emptyExamplesInfo⟩])))) ≠
      NewSuccessResponse [⟨"a,\x7d", "x", emptyExamplesInfo⟩] := by
  decide

end GermanArticleBot
